import Mathlib

/-!
# redists: range-query command construction and reply decoding

A shallow embedding of `query.go`: the command builders (`CmdRanger`, `CmdMRanger`, `CmdGet`,
`CmdMGet`), their option appliers, and the reply decoders (`parseDataPoint`, `parseTimeSeries`,
`parseLastDatapoint`, `Client.ranger`, `Client.mRanger`, `Client.Get`, `Client.MGet`).

Conventions of the embedding
* Go `interface{}` is the inductive `Any`; `int64` is `Int` (wrapped with `wrap64` where the
  source does arithmetic that can overflow); `float64` is carried by its bit pattern and never
  computed with.
* A Go slice whose nil-ness the source tests (`withLabels`, the variadic `labels`) is an
  `Option (List _)`, `none` being the nil slice.  The other slices are only measured with `len`
  and ranged over, so they are `List`s (nil and empty are both `[]`).
* A Go pointer field that is only tested against nil and read is an `Option`.
* A run-time panic (failed type assertion, index out of range) is `Except.error`.
* Declarations that `query.go` uses but that live in other files of the package (`Timestamp`,
  `Filter`, `parseString`, `parseLabel`) and `strconv.ParseFloat` are parameters.
-/

namespace Redists

/-! ## Values -/

/-- Go `float64`, carried by its IEEE-754 binary64 bit pattern. -/
structure float64 where
  bits : Nat
deriving DecidableEq, Repr

/-- Go `interface{}` as far as this package meets it: the scalars a reply or an argument can
hold, and `[]interface{}`. -/
inductive Any where
  | nil : Any
  | int64 (i : Int) : Any
  | str (s : String) : Any
  | float (f : float64) : Any
  | arr (is : List Any) : Any
deriving Repr

/-- Reduction of an integer to the range of `int64` (two's complement wrap-around). -/
def wrap64 (i : Int) : Int :=
  (i + 2 ^ 63) % 2 ^ 64 - 2 ^ 63

/-- Go `time.Time` as an instant: Unix seconds and the nanosecond offset within the second. -/
structure Time where
  sec : Int
  nsec : Int
deriving DecidableEq, Repr

/-- Go `time.Unix(sec, nsec)`: normalises `nsec` into `[0, 1e9)`. -/
def Time.Unix (sec nsec : Int) : Time :=
  if nsec < 0 ∨ nsec ≥ 1000000000 then
    let n := Int.tdiv nsec 1000000000
    let sec := wrap64 (sec + n)
    let nsec := nsec - n * 1000000000
    if nsec < 0 then
      { sec := wrap64 (sec - 1), nsec := nsec + 1000000000 }
    else
      { sec := sec, nsec := nsec }
  else
    { sec := sec, nsec := nsec }

/-- Go `time.UnixMilli(msec)`: `Unix(msec/1e3, (msec%1e3)*1e6)`. -/
def Time.ofUnixMilli (msec : Int) : Time :=
  Time.Unix (Int.tdiv msec 1000) (Int.tmod msec 1000 * 1000000)

/-- Go `Time.UnixMilli()`: `t.unixSec()*1e3 + int64(t.nsec())/1e6` in `int64`. -/
def Time.UnixMilli (t : Time) : Int :=
  wrap64 (wrap64 (t.sec * 1000) + Int.tdiv t.nsec 1000000)

/-- Go `time.Duration`: a signed 64-bit count of nanoseconds. -/
structure Duration where
  ns : Int
deriving DecidableEq, Repr

/-- Go `Duration.Milliseconds()`: `int64(d) / 1e6`, integer division truncating toward zero. -/
def Duration.Milliseconds (d : Duration) : Int :=
  Int.tdiv d.ns 1000000

/-- A type of the package with a method `Arg() interface{}` (`Timestamp`, `Filter`); both are
declared outside `query.go`, so what `Arg` returns is a parameter. -/
class Argument (α : Type) where
  Arg : α → Any

/-! ## Option-name constants

Declared outside `query.go`. -/

/-- Modelled from the spec: the constant `optionNameFilterByTS` is declared outside `query.go`;
the spec names its token `FILTER_BY_TS`. -/
def optionNameFilterByTS : Any := .str "FILTER_BY_TS"

/-- Modelled from the spec: the constant `optionNameFilterByValue` is declared outside
`query.go`; the spec names its token `FILTER_BY_VALUE`. -/
def optionNameFilterByValue : Any := .str "FILTER_BY_VALUE"

/-- Modelled from the spec: the constant `optionNameWithLabels` is declared outside `query.go`;
the spec names its token `WITHLABELS`. -/
def optionNameWithLabels : Any := .str "WITHLABELS"

/-- Modelled from the spec: the constant `optionNameSelectedLabels` is declared outside
`query.go`; the spec names its token `SELECTED_LABELS`. -/
def optionNameSelectedLabels : Any := .str "SELECTED_LABELS"

/-- Modelled from the spec: the constant `optionNameCount` is declared outside `query.go`; the
spec names its token `COUNT`. -/
def optionNameCount : Any := .str "COUNT"

/-- Modelled from the spec: the constant `optionNameAlign` is declared outside `query.go`; the
spec names its token `ALIGN`. -/
def optionNameAlign : Any := .str "ALIGN"

/-- Modelled from the spec: the constant `optionNameAggregation` is declared outside `query.go`;
the spec names its token `AGGREGATION`. -/
def optionNameAggregation : Any := .str "AGGREGATION"

/-- Modelled from the spec: the constant `optionNameFilter` is declared outside `query.go`; the
spec names its token `FILTER`. -/
def optionNameFilter : Any := .str "FILTER"

/-- Modelled from the spec: the constant `optionNameGroupBy` is declared outside `query.go`; the
spec names its token `GROUPBY`. -/
def optionNameGroupBy : Any := .str "GROUPBY"

/-- Modelled from the spec: the constant `optionNameReduce` is declared outside `query.go`; the
spec names its token `REDUCE`. -/
def optionNameReduce : Any := .str "REDUCE"

/-! ## Option payloads -/

/-- `ValueFilter{Min, Max}` (declared outside `query.go`; the two fields are read at lines 55
and 193). -/
structure ValueFilter where
  Min : float64
  Max : float64
deriving DecidableEq, Repr

/-- `AggregationType`, a string type (`string(c.aggregation.Type)`). -/
abbrev AggregationType := String

/-- `ReducerType`, a string type (`string(c.groupBy.Reducer)`). -/
abbrev ReducerType := String

/-- `Aggregation{Type, TimeBucket}` (declared outside `query.go`; the field `Type` is
`type_` here). -/
structure Aggregation where
  type_ : AggregationType
  TimeBucket : Duration
deriving DecidableEq, Repr

/-- `GroupBy{Label, Reducer}` (declared outside `query.go`). -/
structure GroupBy where
  Label : String
  Reducer : ReducerType
deriving DecidableEq, Repr

/-! ## Single-series range builder -/

/-- `nameRanger`, a string type. -/
abbrev nameRanger := String

def nameRange : nameRanger := "TS.RANGE"

def nameRevRange : nameRanger := "TS.REVRANGE"

/-- `CmdRanger` (the fields `from` and `to` are `from_` and `to_` here). -/
structure CmdRanger (Timestamp : Type) where
  name : nameRanger
  key : String
  from_ : Timestamp
  to_ : Timestamp
  tsFilter : List Time
  valueFilter : Option ValueFilter
  count : Option Int
  align : Option Timestamp
  aggregation : Option Aggregation
deriving Repr

section Builders

variable {Timestamp Filter : Type}

def newCmdRanger (name : nameRanger) (key : String) (from_ to_ : Timestamp) :
    CmdRanger Timestamp :=
  { name := name, key := key, from_ := from_, to_ := to_, tsFilter := [], valueFilter := none,
    count := none, align := none, aggregation := none }

def CmdRanger.Name (c : CmdRanger Timestamp) : String :=
  c.name

def CmdRanger.Args [Argument Timestamp] (c : CmdRanger Timestamp) : List Any :=
  let args := [Any.str c.key, Argument.Arg c.from_, Argument.Arg c.to_]
  let args :=
    if c.tsFilter.length > 0 then
      c.tsFilter.foldl (fun args t => args ++ [Any.int64 t.UnixMilli])
        (args ++ [optionNameFilterByTS])
    else args
  let args :=
    match c.valueFilter with
    | some vf => args ++ [optionNameFilterByValue, Any.float vf.Min, Any.float vf.Max]
    | none => args
  let args :=
    match c.count with
    | some n => args ++ [optionNameCount, Any.int64 n]
    | none => args
  let args :=
    match c.align with
    | some a => args ++ [optionNameAlign, Argument.Arg a]
    | none => args
  let args :=
    match c.aggregation with
    | some ag =>
      args ++ [optionNameAggregation, Any.str ag.type_, Any.int64 ag.TimeBucket.Milliseconds]
    | none => args
  args

/-- `OptionRanger`: `func(cmd *CmdRanger)`, as the state transformer it is. -/
abbrev OptionRanger (Timestamp : Type) := CmdRanger Timestamp → CmdRanger Timestamp

def RangerWithTSFilter (tss : List Time) : OptionRanger Timestamp :=
  fun cmd => { cmd with tsFilter := tss }

def RangerWithValueFilter (min max : float64) : OptionRanger Timestamp :=
  fun cmd => { cmd with valueFilter := some { Min := min, Max := max } }

def RangerWithCount (c : Int) : OptionRanger Timestamp :=
  fun cmd => { cmd with count := some c }

def RangerWithAlign (a : Timestamp) : OptionRanger Timestamp :=
  fun cmd => { cmd with align := some a }

def RangerWithAggregation (t : AggregationType) (timeBucket : Duration) :
    OptionRanger Timestamp :=
  fun cmd => { cmd with aggregation := some { type_ := t, TimeBucket := timeBucket } }

/-- The loop `for i := range options { options[i](cmd) }`. -/
def applyOptions {Cmd : Type} (options : List (Cmd → Cmd)) (cmd : Cmd) : Cmd :=
  options.foldl (fun cmd option => option cmd) cmd

/-! ## Multi-series range builder -/

/-- `nameMRanger`, a string type. -/
abbrev nameMRanger := String

def nameMRange : nameMRanger := "TS.MRANGE"

def nameMRevRange : nameMRanger := "TS.MREVRANGE"

/-- `CmdMRanger` (the fields `from` and `to` are `from_` and `to_` here). -/
structure CmdMRanger (Timestamp Filter : Type) where
  name : nameMRanger
  from_ : Timestamp
  to_ : Timestamp
  filters : List Filter
  tsFilter : List Time
  valueFilter : Option ValueFilter
  withLabels : Option (List String)
  count : Option Int
  align : Option Timestamp
  aggregation : Option Aggregation
  groupBy : Option GroupBy

def newCmdMRanger (name : nameMRanger) (from_ to_ : Timestamp) (filters : List Filter) :
    CmdMRanger Timestamp Filter :=
  { name := name, from_ := from_, to_ := to_, filters := filters, tsFilter := [],
    valueFilter := none, withLabels := none, count := none, align := none, aggregation := none,
    groupBy := none }

def CmdMRanger.Name (c : CmdMRanger Timestamp Filter) : String :=
  c.name

def CmdMRanger.Args [Argument Timestamp] [Argument Filter] (c : CmdMRanger Timestamp Filter) :
    List Any :=
  let args := [Argument.Arg c.from_, Argument.Arg c.to_]
  let args :=
    if c.tsFilter.length > 0 then
      c.tsFilter.foldl (fun args t => args ++ [Any.int64 t.UnixMilli])
        (args ++ [optionNameFilterByTS])
    else args
  let args :=
    match c.valueFilter with
    | some vf => args ++ [optionNameFilterByValue, Any.float vf.Min, Any.float vf.Max]
    | none => args
  let args :=
    match c.withLabels with
    | some withLabels =>
      if withLabels.length = 0 then
        args ++ [optionNameWithLabels]
      else
        withLabels.foldl (fun args l => args ++ [Any.str l]) (args ++ [optionNameSelectedLabels])
    | none => args
  let args :=
    match c.count with
    | some n => args ++ [optionNameCount, Any.int64 n]
    | none => args
  let args :=
    match c.align with
    | some a => args ++ [optionNameAlign, Argument.Arg a]
    | none => args
  let args :=
    match c.aggregation with
    | some ag =>
      args ++ [optionNameAggregation, Any.str ag.type_, Any.int64 ag.TimeBucket.Milliseconds]
    | none => args
  let args := args ++ [optionNameFilter]
  let args := c.filters.foldl (fun args f => args ++ [Argument.Arg f]) args
  let args :=
    match c.groupBy with
    | some g => args ++ [optionNameGroupBy, Any.str g.Label, optionNameReduce, Any.str g.Reducer]
    | none => args
  args

/-- `OptionMRanger`: `func(cmd *CmdMRanger)`, as the state transformer it is. -/
abbrev OptionMRanger (Timestamp Filter : Type) :=
  CmdMRanger Timestamp Filter → CmdMRanger Timestamp Filter

def MRangerWithTSFilter (tss : List Time) : OptionMRanger Timestamp Filter :=
  fun cmd => { cmd with tsFilter := tss }

def MRangerWithValueFilter (min max : float64) : OptionMRanger Timestamp Filter :=
  fun cmd => { cmd with valueFilter := some { Min := min, Max := max } }

/-- `MRangerWithLabels(labels ...string)`; `labels` is `none` for the nil slice (a call with no
variadic argument), `some l` for a non-nil one. -/
def MRangerWithLabels (labels : Option (List String)) : OptionMRanger Timestamp Filter :=
  fun cmd =>
    match labels with
    | none => { cmd with withLabels := some [] }
    | some l => { cmd with withLabels := some l }

def MRangerWithCount (c : Int) : OptionMRanger Timestamp Filter :=
  fun cmd => { cmd with count := some c }

def MRangerWithAlign (a : Timestamp) : OptionMRanger Timestamp Filter :=
  fun cmd => { cmd with align := some a }

def MRangerWithAggregation (t : AggregationType) (timeBucket : Duration) :
    OptionMRanger Timestamp Filter :=
  fun cmd => { cmd with aggregation := some { type_ := t, TimeBucket := timeBucket } }

def MRangerWithGroupBy (label : String) (reducer : ReducerType) :
    OptionMRanger Timestamp Filter :=
  fun cmd => { cmd with groupBy := some { Label := label, Reducer := reducer } }

/-! ## Last-value get and multi-get builders -/

structure CmdGet where
  key : String
deriving DecidableEq, Repr

def newCmdGet (key : String) : CmdGet :=
  { key := key }

def CmdGet.Name (_c : CmdGet) : String :=
  "TS.GET"

def CmdGet.Args (c : CmdGet) : List Any :=
  [Any.str c.key]

structure CmdMGet (Filter : Type) where
  filters : List Filter
  withLabels : Option (List String)

def newCmdMGet (filters : List Filter) : CmdMGet Filter :=
  { filters := filters, withLabels := none }

def CmdMGet.Name (_c : CmdMGet Filter) : String :=
  "TS.MGET"

def CmdMGet.Args [Argument Filter] (c : CmdMGet Filter) : List Any :=
  let args : List Any := []
  let args :=
    match c.withLabels with
    | some withLabels =>
      if withLabels.length = 0 then
        args ++ [optionNameWithLabels]
      else
        withLabels.foldl (fun args l => args ++ [Any.str l]) (args ++ [optionNameSelectedLabels])
    | none => args
  let args := args ++ [optionNameFilter]
  let args := c.filters.foldl (fun args f => args ++ [Argument.Arg f]) args
  args

/-- `OptionMGet`: `func(cmd *CmdMGet)`, as the state transformer it is. -/
abbrev OptionMGet (Filter : Type) := CmdMGet Filter → CmdMGet Filter

/-- `MGetWithLabels(labels ...string)`; `labels` is `none` for the nil slice. -/
def MGetWithLabels (labels : Option (List String)) : OptionMGet Filter :=
  fun cmd =>
    match labels with
    | none => { cmd with withLabels := some [] }
    | some l => { cmd with withLabels := some l }

end Builders

/-! ## Reply decoders -/

/-- The two run-time panics the decoders can raise. -/
inductive Panic where
  | indexOutOfRange
  | typeAssertion
deriving DecidableEq, Repr

/-- Go `is[i]`: panics when `i` is out of range. -/
def index (is : List Any) (i : Nat) : Except Panic Any :=
  match is[i]? with
  | some x => .ok x
  | none => .error .indexOutOfRange

/-- Go `x.([]interface{})` in its one-result form: panics on any other dynamic type. -/
def assertSlice (x : Any) : Except Panic (List Any) :=
  match x with
  | .arr is => .ok is
  | _ => .error .typeAssertion

/-- Go `x.(int64)` in its one-result form: panics on any other dynamic type. -/
def assertInt64 (x : Any) : Except Panic Int :=
  match x with
  | .int64 i => .ok i
  | _ => .error .typeAssertion

structure DataPoint where
  Timestamp : Time
  Value : float64
deriving DecidableEq, Repr

/-- What the decoders call that is declared outside `query.go`: the package's `parseString`
and `parseLabel` (either may panic for all `query.go` shows), and `strconv.ParseFloat(s, 64)`,
whose result is the value and whether the error is non-nil. -/
structure Helpers (Label : Type) where
  parseString : Any → Except Panic String
  parseLabel : List Any → Except Panic Label
  ParseFloat : String → float64 × Bool

section Decoders

variable {Label E : Type}

def parseDataPoint (h : Helpers Label) (is : List Any) : Except Panic DataPoint := do
  let s ← h.parseString (← index is 1)
  let v := (h.ParseFloat s).1
  let t ← assertInt64 (← index is 0)
  pure { Timestamp := Time.ofUnixMilli t, Value := v }

structure TimeSeries (Label : Type) where
  Key : String
  Labels : List Label
  DataPoints : List DataPoint
deriving Repr

def parseTimeSeries (h : Helpers Label) (is : List Any) : Except Panic (TimeSeries Label) := do
  let ls ←
    match ← index is 1 with
    | .arr ils => ils.mapM (fun il => do h.parseLabel (← assertSlice il))
    | _ => pure []
  let dps ←
    match ← index is 2 with
    | .arr idps => idps.mapM (fun idp => do parseDataPoint h (← assertSlice idp))
    | _ => pure []
  let key ← h.parseString (← index is 0)
  pure { Key := key, Labels := ls, DataPoints := dps }

structure LastDatapoint (Label : Type) where
  Key : String
  Labels : List Label
  DataPoint : DataPoint
deriving Repr

def parseLastDatapoint (h : Helpers Label) (is : List Any) :
    Except Panic (LastDatapoint Label) := do
  let ls ←
    match ← index is 1 with
    | .arr ils => ils.mapM (fun il => do h.parseLabel (← assertSlice il))
    | _ => pure []
  let key ← h.parseString (← index is 0)
  let dp ← parseDataPoint h (← assertSlice (← index is 2))
  pure { Key := key, Labels := ls, DataPoint := dp }

/-- `Client`: the transport `c.d.Do(ctx, name, args...)`, returning the reply and the error
(`none` for nil), and the helpers of the package. -/
structure Client (Label E : Type) where
  Do : String → List Any → Any × Option E
  helpers : Helpers Label

section Calls

variable {Timestamp Filter : Type} [Argument Timestamp] [Argument Filter]

def Client.ranger (c : Client Label E) (name : nameRanger) (key : String)
    (from_ to_ : Timestamp) (options : List (OptionRanger Timestamp)) :
    Except Panic (List DataPoint × Option E) := do
  let cmd := applyOptions options (newCmdRanger name key from_ to_)
  let (res, err) := c.Do cmd.Name cmd.Args
  let ds ←
    match res with
    | .arr is => is.mapM (fun i => do parseDataPoint c.helpers (← assertSlice i))
    | _ => pure []
  pure (ds, err)

/-- `Range` queries a range in forward direction. -/
def Client.Range (c : Client Label E) (key : String) (from_ to_ : Timestamp)
    (options : List (OptionRanger Timestamp)) : Except Panic (List DataPoint × Option E) :=
  c.ranger nameRange key from_ to_ options

/-- `RevRange` queries a range in reverse direction. -/
def Client.RevRange (c : Client Label E) (key : String) (from_ to_ : Timestamp)
    (options : List (OptionRanger Timestamp)) : Except Panic (List DataPoint × Option E) :=
  c.ranger nameRevRange key from_ to_ options

def Client.mRanger (c : Client Label E) (name : nameMRanger) (from_ to_ : Timestamp)
    (filters : List Filter) (options : List (OptionMRanger Timestamp Filter)) :
    Except Panic (List (TimeSeries Label) × Option E) := do
  let cmd := applyOptions options (newCmdMRanger name from_ to_ filters)
  let (res, err) := c.Do cmd.Name cmd.Args
  let ds ←
    match res with
    | .arr is => is.mapM (fun i => do parseTimeSeries c.helpers (← assertSlice i))
    | _ => pure []
  pure (ds, err)

/-- `MRange` queries a range across multiple time-series by filters in forward direction. -/
def Client.MRange (c : Client Label E) (from_ to_ : Timestamp) (filters : List Filter)
    (options : List (OptionMRanger Timestamp Filter)) :
    Except Panic (List (TimeSeries Label) × Option E) :=
  c.mRanger nameMRange from_ to_ filters options

/-- `MRevRange` queries a range across multiple time-series by filters in reverse direction. -/
def Client.MRevRange (c : Client Label E) (from_ to_ : Timestamp) (filters : List Filter)
    (options : List (OptionMRanger Timestamp Filter)) :
    Except Panic (List (TimeSeries Label) × Option E) :=
  c.mRanger nameMRevRange from_ to_ filters options

/-- The zero value `DataPoint{}`. -/
def DataPoint.zero : DataPoint :=
  { Timestamp := { sec := -62135596800, nsec := 0 }, Value := { bits := 0 } }

/-- `Get` gets the last sample. -/
def Client.Get (c : Client Label E) (key : String) : Except Panic (DataPoint × Option E) := do
  let cmd := newCmdGet key
  let (res, err) := c.Do cmd.Name cmd.Args
  match err with
  | some e => pure (DataPoint.zero, some e)
  | none =>
    let dp ← parseDataPoint c.helpers (← assertSlice res)
    pure (dp, none)

/-- `MGet` gets the last samples matching the specific filter. -/
def Client.MGet (c : Client Label E) (filters : List Filter)
    (options : List (OptionMGet Filter)) :
    Except Panic (List (LastDatapoint Label) × Option E) := do
  let cmd := applyOptions options (newCmdMGet filters)
  let (res, err) := c.Do cmd.Name cmd.Args
  let ds ←
    match res with
    | .arr is => is.mapM (fun i => do parseLastDatapoint c.helpers (← assertSlice i))
    | _ => pure []
  pure (ds, err)

end Calls

end Decoders

/-! ## The provided options, enumerated

The appliers `query.go` exports, as data: what the claims about "every option" and "options of
different kinds" range over. -/

/-- The optional clause an option populates. -/
inductive OptionKind where
  | tsFilter
  | valueFilter
  | labels
  | count
  | align
  | aggregation
  | groupBy
deriving DecidableEq, Repr

/-- A call of one of the five `RangerWith*` constructors. -/
inductive RangerOption (Timestamp : Type) where
  | tsFilter (tss : List Time)
  | valueFilter (min max : float64)
  | count (c : Int)
  | align (a : Timestamp)
  | aggregation (t : AggregationType) (timeBucket : Duration)

def RangerOption.kind {Timestamp : Type} : RangerOption Timestamp → OptionKind
  | .tsFilter _ => .tsFilter
  | .valueFilter _ _ => .valueFilter
  | .count _ => .count
  | .align _ => .align
  | .aggregation _ _ => .aggregation

def RangerOption.apply {Timestamp : Type} : RangerOption Timestamp → OptionRanger Timestamp
  | .tsFilter tss => RangerWithTSFilter tss
  | .valueFilter min max => RangerWithValueFilter min max
  | .count c => RangerWithCount c
  | .align a => RangerWithAlign a
  | .aggregation t timeBucket => RangerWithAggregation t timeBucket

/-- A call of one of the seven `MRangerWith*` constructors. -/
inductive MRangerOption (Timestamp : Type) where
  | tsFilter (tss : List Time)
  | valueFilter (min max : float64)
  | labels (names : Option (List String))
  | count (c : Int)
  | align (a : Timestamp)
  | aggregation (t : AggregationType) (timeBucket : Duration)
  | groupBy (label : String) (reducer : ReducerType)

def MRangerOption.kind {Timestamp : Type} : MRangerOption Timestamp → OptionKind
  | .tsFilter _ => .tsFilter
  | .valueFilter _ _ => .valueFilter
  | .labels _ => .labels
  | .count _ => .count
  | .align _ => .align
  | .aggregation _ _ => .aggregation
  | .groupBy _ _ => .groupBy

def MRangerOption.apply {Timestamp Filter : Type} :
    MRangerOption Timestamp → OptionMRanger Timestamp Filter
  | .tsFilter tss => MRangerWithTSFilter tss
  | .valueFilter min max => MRangerWithValueFilter min max
  | .labels names => MRangerWithLabels names
  | .count c => MRangerWithCount c
  | .align a => MRangerWithAlign a
  | .aggregation t timeBucket => MRangerWithAggregation t timeBucket
  | .groupBy label reducer => MRangerWithGroupBy label reducer

/-- The group-by of the last `MRangerWithGroupBy` in a sequence of options, if there is one. -/
def lastGroupBy {Timestamp : Type} : List (MRangerOption Timestamp) → Option GroupBy
  | [] => none
  | o :: os =>
    match lastGroupBy os with
    | some g => some g
    | none =>
      match o with
      | .groupBy label reducer => some { Label := label, Reducer := reducer }
      | _ => none

/-! ## Sample instances for the concrete examples -/

/-- Modelled from the spec: `Timestamp` is declared outside `query.go`; the spec describes it as
a point-in-time value or one of two sentinels, rendered as a millisecond integer or as the
sentinel literal `-` / `+`. -/
inductive SpecTimestamp where
  | time (t : Time)
  | min
  | max
deriving DecidableEq, Repr

instance : Argument SpecTimestamp where
  Arg
    | .time t => Any.int64 t.UnixMilli
    | .min => Any.str "-"
    | .max => Any.str "+"

/-- Modelled from the spec: `Filter` is declared outside `query.go`; the spec treats it as a
pre-rendered string token. -/
structure SpecFilter where
  rendered : String
deriving DecidableEq, Repr

instance : Argument SpecFilter where
  Arg f := Any.str f.rendered

/-- Modelled from the spec: `Label` is declared outside `query.go`; the spec gives it the two
fields `Name` and `Value`. -/
structure SpecLabel where
  Name : String
  Value : String
deriving DecidableEq, Repr

/-- Modelled from the spec: `parseString` is declared outside `query.go`; a string of the reply
decodes to itself and, shape mismatches degrading to a zero value, anything else to the empty
string. -/
def specParseString : Any → Except Panic String
  | .str s => .ok s
  | _ => .ok ""

/-- Modelled from the spec: `parseLabel` is declared outside `query.go`; a label of the reply is
the pair of its name and its value. -/
def specParseLabel (is : List Any) : Except Panic SpecLabel := do
  let name ← specParseString (← index is 0)
  let value ← specParseString (← index is 1)
  pure { Name := name, Value := value }

/-- A finite excerpt of `strconv.ParseFloat(s, 64)`: the value strings of the spec's examples
with their binary64 values, and `1e999` / `-1e999`, which are syntactically numbers beyond the
range of `float64` and for which `ParseFloat` returns `+Inf` / `-Inf` together with a range
error. Every string outside the excerpt is given the result of a syntax error (value zero,
non-nil error). -/
def excerptParseFloat (s : String) : float64 × Bool :=
  if s = "3.5" then ({ bits := 0x400C000000000000 }, false)
  else if s = "4.25" then ({ bits := 0x4011000000000000 }, false)
  else if s = "1.0" then ({ bits := 0x3FF0000000000000 }, false)
  else if s = "1e999" then ({ bits := 0x7FF0000000000000 }, true)
  else if s = "-1e999" then ({ bits := 0xFFF0000000000000 }, true)
  else ({ bits := 0 }, true)

/-- The helpers used in the concrete examples. -/
def specHelpers : Helpers SpecLabel :=
  { parseString := specParseString, parseLabel := specParseLabel,
    ParseFloat := excerptParseFloat }

/-- A transport that answers every command with the same reply and error. -/
def constClient (reply : Any) (err : Option String) : Client SpecLabel String :=
  { Do := fun _ _ => (reply, err), helpers := specHelpers }

/-- The decoding loop that `ranger`, `mRanger` and `MGet` share, as a function of the reply:
`if is, ok := res.([]interface{}); ok { for i := range is { ds[i] = parse(is[i].([]interface{})) } }`
on an initially nil `ds`. -/
def decodeSeq {α : Type} (parse : List Any → Except Panic α) (res : Any) :
    Except Panic (List α) :=
  match res with
  | .arr is => is.mapM (fun i => do parse (← assertSlice i))
  | _ => pure []

/-! ## The store's grammar, clause by clause

The optional groups of the rendering order as the specification words them: each is the empty
list when its field is unset. -/

/-- Clause `[FILTER_BY_TS ts...]`: present iff the timestamp list is non-empty, one
millisecond integer per timestamp. -/
def clauseFilterByTS (tss : List Time) : List Any :=
  match tss with
  | [] => []
  | _ :: _ => Any.str "FILTER_BY_TS" :: tss.map (fun t => Any.int64 t.UnixMilli)

/-- Clause `[FILTER_BY_VALUE min max]`. -/
def clauseFilterByValue (vf : Option ValueFilter) : List Any :=
  match vf with
  | none => []
  | some vf => [Any.str "FILTER_BY_VALUE", Any.float vf.Min, Any.float vf.Max]

/-- Clause `[WITHLABELS | SELECTED_LABELS name...]`: absent when the option was never applied,
`WITHLABELS` for an empty name list, `SELECTED_LABELS` and the names otherwise. -/
def clauseLabels (withLabels : Option (List String)) : List Any :=
  match withLabels with
  | none => []
  | some [] => [Any.str "WITHLABELS"]
  | some (n :: ns) => Any.str "SELECTED_LABELS" :: (n :: ns).map Any.str

/-- Clause `[COUNT n]`. -/
def clauseCount (count : Option Int) : List Any :=
  match count with
  | none => []
  | some n => [Any.str "COUNT", Any.int64 n]

/-- Clause `[ALIGN ts]`. -/
def clauseAlign {Timestamp : Type} [Argument Timestamp] (align : Option Timestamp) : List Any :=
  match align with
  | none => []
  | some a => [Any.str "ALIGN", Argument.Arg a]

/-- Clause `[AGGREGATION type bucketMs]`. -/
def clauseAggregation (aggregation : Option Aggregation) : List Any :=
  match aggregation with
  | none => []
  | some ag => [Any.str "AGGREGATION", Any.str ag.type_, Any.int64 ag.TimeBucket.Milliseconds]

/-- Clause `FILTER filter...`. -/
def clauseFilter {Filter : Type} [Argument Filter] (filters : List Filter) : List Any :=
  Any.str "FILTER" :: filters.map Argument.Arg

/-- Clause `[GROUPBY label REDUCE reducer]`. -/
def clauseGroupBy (groupBy : Option GroupBy) : List Any :=
  match groupBy with
  | none => []
  | some g => [Any.str "GROUPBY", Any.str g.Label, Any.str "REDUCE", Any.str g.Reducer]

/-! ## Lemmas on the rendering loops -/

/-- A Go loop `for i := range xs { args = append(args, f(xs[i])) }` appends the image of `xs`. -/
theorem foldl_append_singleton {α β : Type} (f : α → β) (xs : List α) (init : List β) :
    xs.foldl (fun args x => args ++ [f x]) init = init ++ xs.map f := by
  induction xs generalizing init with
  | nil => simp
  | cons x xs ih => simp [ih]

/-- The `FILTER_BY_TS` step of `Args` appends the clause of the grammar. -/
theorem step_filterByTS (tss : List Time) (args : List Any) :
    (if tss.length > 0 then
      tss.foldl (fun args t => args ++ [Any.int64 t.UnixMilli]) (args ++ [optionNameFilterByTS])
    else args) = args ++ clauseFilterByTS tss := by
  cases tss <;> simp [clauseFilterByTS, foldl_append_singleton, optionNameFilterByTS]

/-- The `FILTER_BY_VALUE` step of `Args` appends the clause of the grammar. -/
theorem step_filterByValue (vf : Option ValueFilter) (args : List Any) :
    (match vf with
      | some vf => args ++ [optionNameFilterByValue, Any.float vf.Min, Any.float vf.Max]
      | none => args) = args ++ clauseFilterByValue vf := by
  cases vf <;> simp [clauseFilterByValue, optionNameFilterByValue]

/-- The label step of `Args` appends the clause of the grammar. -/
theorem step_labels (wl : Option (List String)) (args : List Any) :
    (match wl with
      | some withLabels =>
        if withLabels.length = 0 then
          args ++ [optionNameWithLabels]
        else
          withLabels.foldl (fun args l => args ++ [Any.str l])
            (args ++ [optionNameSelectedLabels])
      | none => args) = args ++ clauseLabels wl := by
  rcases wl with _ | _ | ⟨n, ns⟩ <;>
    simp [clauseLabels, foldl_append_singleton, optionNameWithLabels, optionNameSelectedLabels]

/-- The `COUNT` step of `Args` appends the clause of the grammar. -/
theorem step_count (count : Option Int) (args : List Any) :
    (match count with
      | some n => args ++ [optionNameCount, Any.int64 n]
      | none => args) = args ++ clauseCount count := by
  cases count <;> simp [clauseCount, optionNameCount]

/-- The `ALIGN` step of `Args` appends the clause of the grammar. -/
theorem step_align {Timestamp : Type} [Argument Timestamp] (align : Option Timestamp)
    (args : List Any) :
    (match align with
      | some a => args ++ [optionNameAlign, Argument.Arg a]
      | none => args) = args ++ clauseAlign align := by
  cases align <;> simp [clauseAlign, optionNameAlign]

/-- The `AGGREGATION` step of `Args` appends the clause of the grammar. -/
theorem step_aggregation (aggregation : Option Aggregation) (args : List Any) :
    (match aggregation with
      | some ag =>
        args ++ [optionNameAggregation, Any.str ag.type_, Any.int64 ag.TimeBucket.Milliseconds]
      | none => args) = args ++ clauseAggregation aggregation := by
  cases aggregation <;> simp [clauseAggregation, optionNameAggregation]

/-- The `FILTER` step of `Args` appends the clause of the grammar. -/
theorem step_filter {Filter : Type} [Argument Filter] (filters : List Filter)
    (args : List Any) :
    filters.foldl (fun args f => args ++ [Argument.Arg f]) (args ++ [optionNameFilter])
      = args ++ clauseFilter filters := by
  simp [clauseFilter, foldl_append_singleton, optionNameFilter]

/-- The `GROUPBY` step of `Args` appends the clause of the grammar. -/
theorem step_groupBy (groupBy : Option GroupBy) (args : List Any) :
    (match groupBy with
      | some g =>
        args ++ [optionNameGroupBy, Any.str g.Label, optionNameReduce, Any.str g.Reducer]
      | none => args) = args ++ clauseGroupBy groupBy := by
  cases groupBy <;> simp [clauseGroupBy, optionNameGroupBy, optionNameReduce]

/-! ## Lemmas on time and on the decoding loops -/

theorem wrap64_of_range (i : Int) (hlo : -2 ^ 63 ≤ i) (hhi : i < 2 ^ 63) : wrap64 i = i := by
  unfold wrap64
  norm_num at hlo hhi ⊢
  omega

/-- Truncated division by a positive divisor: the remainder has the sign of the dividend. -/
theorem tdiv_tmod_spec (a b : Int) (hb : 0 < b) :
    b * Int.tdiv a b + Int.tmod a b = a ∧
      (0 ≤ a → 0 ≤ Int.tmod a b ∧ Int.tmod a b < b) ∧
      (a < 0 → -b < Int.tmod a b ∧ Int.tmod a b ≤ 0) := by
  refine ⟨Int.tdiv_add_tmod a b, fun h => ⟨Int.tmod_nonneg b h, Int.tmod_lt_of_pos a hb⟩,
    fun h => ?_⟩
  have e1 := Int.tdiv_add_tmod a b
  have e2 := Int.tdiv_add_tmod (-a) b
  rw [Int.neg_tdiv] at e2
  have h2 := Int.tmod_nonneg b (show 0 ≤ -a by omega)
  have h3 := Int.tmod_lt_of_pos (-a) hb
  constructor <;> linarith

/-- `time.UnixMilli(t)` is the instant `t` milliseconds after the Unix epoch: its seconds and
nanoseconds add up to `t * 10^6` nanoseconds, the nanoseconds are normalised, and
`UnixMilli()` reads `t` back. -/
theorem Time.ofUnixMilli_instant (t : Int) (hlo : -2 ^ 63 ≤ t) (hhi : t < 2 ^ 63) :
    (Time.ofUnixMilli t).sec * 1000000000 + (Time.ofUnixMilli t).nsec = t * 1000000 ∧
    0 ≤ (Time.ofUnixMilli t).nsec ∧ (Time.ofUnixMilli t).nsec < 1000000000 ∧
    (Time.ofUnixMilli t).UnixMilli = t := by
  obtain ⟨hqr, hpos, hneg⟩ := tdiv_tmod_spec t 1000 (by norm_num)
  norm_num at hlo hhi
  simp only [Time.ofUnixMilli, Time.Unix, Time.UnixMilli]
  generalize Int.tdiv t 1000 = q at *
  generalize Int.tmod t 1000 = r at *
  obtain ⟨hn, hnpos, hnneg⟩ := tdiv_tmod_spec (r * 1000000) 1000000000 (by norm_num)
  generalize Int.tdiv (r * 1000000) 1000000000 = n at *
  generalize Int.tmod (r * 1000000) 1000000000 = m at *
  have hn0 : n = 0 := by
    by_cases ht : 0 ≤ t
    · have := hpos ht
      have := hnpos (by omega)
      omega
    · have := hneg (by omega)
      by_cases hr0 : 0 ≤ r
      · have := hnpos (by omega)
        omega
      · have := hnneg (by omega)
        omega
  subst hn0
  have hw : ∀ i : Int, -9223372036854775808 ≤ i → i < 9223372036854775808 → wrap64 i = i := by
    intro i h1 h2
    exact wrap64_of_range i (by norm_num; exact h1) (by norm_num; exact h2)
  by_cases hr : r < 0
  · have hrr := hneg (by omega)
    have hc : (r * 1000000 < 0 ∨ r * 1000000 ≥ 1000000000) := Or.inl (by omega)
    have hc2 : r * 1000000 - 0 * 1000000000 < 0 := by omega
    simp only [hc, hc2, if_true]
    rw [hw (q + 0) (by omega) (by omega), hw (q + 0 - 1) (by omega) (by omega)]
    obtain ⟨hd, hdpos, _⟩ := tdiv_tmod_spec (r * 1000000 - 0 * 1000000000 + 1000000000)
      1000000 (by norm_num)
    have := hdpos (by omega)
    generalize Int.tdiv (r * 1000000 - 0 * 1000000000 + 1000000000) 1000000 = d at *
    refine ⟨by omega, by omega, by omega, ?_⟩
    unfold wrap64
    norm_num
    omega
  · have hc : ¬ (r * 1000000 < 0 ∨ r * 1000000 ≥ 1000000000) := by
      by_cases ht : 0 ≤ t
      · have := hpos ht
        omega
      · have := hneg (by omega)
        omega
    simp only [hc, if_false]
    obtain ⟨hd, hdpos, _⟩ := tdiv_tmod_spec (r * 1000000) 1000000 (by norm_num)
    have := hdpos (by omega)
    generalize Int.tdiv (r * 1000000) 1000000 = d at *
    refine ⟨by omega, by omega, by omega, ?_⟩
    unfold wrap64
    norm_num
    omega

/-- A decoding loop over a reply array succeeds with the list of the elements' results when
every element decodes. -/
theorem mapM_ok_of_forall {α β γ : Type} (f : α → Except Panic β) (g : γ → α) (r : γ → β)
    (l : List γ) (h : ∀ x ∈ l, f (g x) = .ok (r x)) :
    (l.map g).mapM f = .ok (l.map r) := by
  induction l with
  | nil => rfl
  | cons x xs ih =>
    have hx := h x (List.mem_cons_self x xs)
    have hxs := ih (fun y hy => h y (List.mem_cons_of_mem x hy))
    simp only [List.map_cons, List.mapM_cons, hx, hxs]
    rfl

/-- A pair `[t, s]` of a 64-bit integer and a string decodes to the data point at `t`
milliseconds with the value `ParseFloat` gives for `s`. -/
theorem parseDataPoint_pair {Label : Type} (h : Helpers Label)
    (hps : ∀ s, h.parseString (Any.str s) = .ok s) (t : Int) (s : String) :
    parseDataPoint h [Any.int64 t, Any.str s]
      = .ok { Timestamp := Time.ofUnixMilli t, Value := (h.ParseFloat s).1 } := by
  simp only [parseDataPoint, index, List.getElem?_cons_succ, List.getElem?_cons_zero, bind,
    Except.bind, hps, assertInt64]
  rfl

/-- The loop over an array of pairs `[t, s]` decodes each pair, in order. -/
theorem parseDataPoints_pairs {Label : Type} (h : Helpers Label)
    (hps : ∀ s, h.parseString (Any.str s) = .ok s) (pts : List (Int × String)) :
    (pts.map (fun p => Any.arr [Any.int64 p.1, Any.str p.2])).mapM
        (fun i => do parseDataPoint h (← assertSlice i))
      = .ok (pts.map (fun p =>
          { Timestamp := Time.ofUnixMilli p.1, Value := (h.ParseFloat p.2).1 })) := by
  apply mapM_ok_of_forall
  intro p _
  simp only [assertSlice, bind, Except.bind]
  exact parseDataPoint_pair h hps p.1 p.2

/-- `ranger` is the shared decoding loop on the transport's reply, paired with the transport's
error. -/
theorem ranger_eq_decodeSeq {Timestamp Label E : Type} [Argument Timestamp]
    (c : Client Label E) (name : nameRanger) (key : String) (from_ to_ : Timestamp)
    (options : List (OptionRanger Timestamp)) :
    c.ranger name key from_ to_ options
      = (decodeSeq (parseDataPoint c.helpers)
          (c.Do (applyOptions options (newCmdRanger name key from_ to_)).Name
            (applyOptions options (newCmdRanger name key from_ to_)).Args).1).map
        (fun ds => (ds, (c.Do (applyOptions options (newCmdRanger name key from_ to_)).Name
            (applyOptions options (newCmdRanger name key from_ to_)).Args).2)) := by
  obtain ⟨Do, helpers⟩ := c
  simp only [Client.ranger, decodeSeq]
  generalize Do _ _ = r
  obtain ⟨res, err⟩ := r
  cases res <;> rfl

/-- `mRanger` is the shared decoding loop on the transport's reply, paired with the
transport's error. -/
theorem mRanger_eq_decodeSeq {Timestamp Filter Label E : Type} [Argument Timestamp]
    [Argument Filter] (c : Client Label E) (name : nameMRanger) (from_ to_ : Timestamp)
    (filters : List Filter) (options : List (OptionMRanger Timestamp Filter)) :
    c.mRanger name from_ to_ filters options
      = (decodeSeq (parseTimeSeries c.helpers)
          (c.Do (applyOptions options (newCmdMRanger name from_ to_ filters)).Name
            (applyOptions options (newCmdMRanger name from_ to_ filters)).Args).1).map
        (fun ds => (ds, (c.Do (applyOptions options (newCmdMRanger name from_ to_ filters)).Name
            (applyOptions options (newCmdMRanger name from_ to_ filters)).Args).2)) := by
  obtain ⟨Do, helpers⟩ := c
  simp only [Client.mRanger, decodeSeq]
  generalize Do _ _ = r
  obtain ⟨res, err⟩ := r
  cases res <;> rfl

/-- `MGet` is the shared decoding loop on the transport's reply, paired with the transport's
error. -/
theorem MGet_eq_decodeSeq {Filter Label E : Type} [Argument Filter]
    (c : Client Label E) (filters : List Filter) (options : List (OptionMGet Filter)) :
    c.MGet filters options
      = (decodeSeq (parseLastDatapoint c.helpers)
          (c.Do (applyOptions options (newCmdMGet filters)).Name
            (applyOptions options (newCmdMGet filters)).Args).1).map
        (fun ds => (ds, (c.Do (applyOptions options (newCmdMGet filters)).Name
            (applyOptions options (newCmdMGet filters)).Args).2)) := by
  obtain ⟨Do, helpers⟩ := c
  simp only [Client.MGet, decodeSeq]
  generalize Do _ _ = r
  obtain ⟨res, err⟩ := r
  cases res <;> rfl

/-- A reply that is not a sequence decodes to the empty result. -/
theorem decodeSeq_of_not_arr {α : Type} (parse : List Any → Except Panic α) (res : Any)
    (h : ∀ l, res ≠ Any.arr l) : decodeSeq parse res = .ok [] := by
  cases res with
  | arr l => exact absurd rfl (h l)
  | _ => rfl

/-- What a decoding loop returns, paired with an error, carries that error. -/
theorem snd_of_map_pair_eq_ok {α E : Type} (x : Except Panic (List α)) (err : Option E)
    (r : List α × Option E) (h : x.map (fun ds => (ds, err)) = .ok r) : r.2 = err := by
  cases x with
  | error p => cases h
  | ok ds =>
    have h' : (ds, err) = r := Except.ok.inj h
    rw [← h']

/-- A decoding that returns, paired with one error, returns the same result paired with
another. -/
theorem map_pair_ok_of_map_pair_ok {α E : Type} (x : Except Panic (List α)) (err err' : Option E)
    (r : List α × Option E) (h : x.map (fun ds => (ds, err)) = .ok r) :
    x.map (fun ds => (ds, err')) = .ok (r.1, err') := by
  cases x with
  | error p => cases h
  | ok ds =>
    have h' : (ds, err) = r := Except.ok.inj h
    rw [← h']
    rfl

/-! ## Lemmas on sequences of options -/

theorem applyOptions_nil {Cmd : Type} (cmd : Cmd) : applyOptions [] cmd = cmd := rfl

theorem applyOptions_cons {Cmd : Type} (o : Cmd → Cmd) (os : List (Cmd → Cmd)) (cmd : Cmd) :
    applyOptions (o :: os) cmd = applyOptions os (o cmd) := rfl

/-- No provided multi-series option writes `name`, `from`, `to` or `filters`. -/
theorem MRangerOption_apply_required {Timestamp Filter : Type} (o : MRangerOption Timestamp)
    (c : CmdMRanger Timestamp Filter) :
    (o.apply c).name = c.name ∧ (o.apply c).from_ = c.from_ ∧ (o.apply c).to_ = c.to_ ∧
      (o.apply c).filters = c.filters := by
  cases o with
  | labels names => cases names <;> exact ⟨rfl, rfl, rfl, rfl⟩
  | _ => exact ⟨rfl, rfl, rfl, rfl⟩

/-- A sequence of provided multi-series options leaves `name`, `from`, `to`, `filters` alone. -/
theorem MRanger_applyOptions_required {Timestamp Filter : Type}
    (opts : List (MRangerOption Timestamp)) (c : CmdMRanger Timestamp Filter) :
    (applyOptions (opts.map MRangerOption.apply) c).name = c.name ∧
    (applyOptions (opts.map MRangerOption.apply) c).from_ = c.from_ ∧
    (applyOptions (opts.map MRangerOption.apply) c).to_ = c.to_ ∧
    (applyOptions (opts.map MRangerOption.apply) c).filters = c.filters := by
  induction opts generalizing c with
  | nil => exact ⟨rfl, rfl, rfl, rfl⟩
  | cons o os ih =>
    obtain ⟨h1, h2, h3, h4⟩ := ih (o.apply c)
    obtain ⟨g1, g2, g3, g4⟩ := MRangerOption_apply_required o c
    simp only [List.map_cons, applyOptions_cons]
    exact ⟨h1.trans g1, h2.trans g2, h3.trans g3, h4.trans g4⟩

/-- The group-by field after a sequence of provided options is the one of the last
`MRangerWithGroupBy`, or the initial one if there is none. -/
theorem MRanger_applyOptions_groupBy {Timestamp Filter : Type}
    (opts : List (MRangerOption Timestamp)) (c : CmdMRanger Timestamp Filter) :
    (applyOptions (opts.map MRangerOption.apply) c).groupBy =
      match lastGroupBy opts with
      | some g => some g
      | none => c.groupBy := by
  induction opts generalizing c with
  | nil => rfl
  | cons o os ih =>
    simp only [List.map_cons, applyOptions_cons, ih, lastGroupBy]
    cases lastGroupBy os with
    | some g => rfl
    | none =>
      cases o with
      | labels names => cases names <;> rfl
      | _ => rfl

/-- There is a last group-by exactly when some option of the sequence is a group-by. -/
theorem lastGroupBy_eq_none_iff {Timestamp : Type} (opts : List (MRangerOption Timestamp)) :
    lastGroupBy opts = none ↔ ∀ o ∈ opts, o.kind ≠ OptionKind.groupBy := by
  induction opts with
  | nil => simp [lastGroupBy]
  | cons o os ih =>
    simp only [lastGroupBy, List.mem_cons, forall_eq_or_imp]
    cases h : lastGroupBy os with
    | some g =>
      have hno := ih.not.mp (by simp [h])
      constructor
      · intro hsome
        cases hsome
      · intro hall
        exact absurd hall.2 hno
    | none =>
      have hos := ih.mp h
      cases o <;> simp only [MRangerOption.kind] <;> simp <;> exact hos

/-- Appliers that commute pairwise can be applied in any order: two permutations of a list of
pairwise commuting options leave the builder in the same state. -/
theorem applyOptions_perm {α Cmd : Type} (f : α → Cmd → Cmd) (R : α → α → Prop)
    (hsymm : ∀ a b, R a b → R b a)
    (hcomm : ∀ a b, R a b → ∀ c, f a (f b c) = f b (f a c))
    {l₁ l₂ : List α} (hp : l₁.Perm l₂) (hpw : l₁.Pairwise R) (c : Cmd) :
    applyOptions (l₁.map f) c = applyOptions (l₂.map f) c := by
  induction hp generalizing c with
  | nil => rfl
  | cons x _ ih =>
    simp only [List.map_cons, applyOptions_cons]
    exact ih (List.pairwise_cons.mp hpw).2 (f x c)
  | swap x y l =>
    simp only [List.map_cons, applyOptions_cons]
    obtain ⟨hy, _⟩ := List.pairwise_cons.mp hpw
    rw [hcomm x y (hsymm _ _ (hy x (List.mem_cons_self x l))) c]
  | trans h₁₂ _ ih₁ ih₂ =>
    have hpw₂ := (h₁₂.pairwise_iff (fun {a b} h => hsymm a b h)).mp hpw
    exact (ih₁ hpw c).trans (ih₂ hpw₂ c)

/-- Two provided single-series options of different kinds commute. -/
theorem RangerOption_apply_comm {Timestamp : Type} (o₁ o₂ : RangerOption Timestamp)
    (h : o₁.kind ≠ o₂.kind) (c : CmdRanger Timestamp) :
    o₁.apply (o₂.apply c) = o₂.apply (o₁.apply c) := by
  cases o₁ <;> cases o₂ <;> first | rfl | exact absurd rfl h

/-- Two provided multi-series options of different kinds commute. -/
theorem MRangerOption_apply_comm {Timestamp Filter : Type} (m₁ m₂ : MRangerOption Timestamp)
    (h : m₁.kind ≠ m₂.kind) (c : CmdMRanger Timestamp Filter) :
    m₁.apply (m₂.apply c) = m₂.apply (m₁.apply c) := by
  cases m₁ with
  | labels n₁ =>
    cases m₂ with
    | labels n₂ => exact absurd rfl h
    | _ => cases n₁ <;> rfl
  | _ =>
    cases m₂ with
    | labels n₂ => cases n₂ <;> rfl
    | _ => first | rfl | exact absurd rfl h

/-- No provided single-series option writes `name`, `key`, `from` or `to`. -/
theorem RangerOption_apply_required {Timestamp : Type} (o : RangerOption Timestamp)
    (c : CmdRanger Timestamp) :
    (o.apply c).name = c.name ∧ (o.apply c).key = c.key ∧ (o.apply c).from_ = c.from_ ∧
      (o.apply c).to_ = c.to_ := by
  cases o <;> exact ⟨rfl, rfl, rfl, rfl⟩

/-- A sequence of provided single-series options leaves `name`, `key`, `from`, `to` alone. -/
theorem Ranger_applyOptions_required {Timestamp : Type}
    (opts : List (RangerOption Timestamp)) (c : CmdRanger Timestamp) :
    (applyOptions (opts.map RangerOption.apply) c).name = c.name ∧
    (applyOptions (opts.map RangerOption.apply) c).key = c.key ∧
    (applyOptions (opts.map RangerOption.apply) c).from_ = c.from_ ∧
    (applyOptions (opts.map RangerOption.apply) c).to_ = c.to_ := by
  induction opts generalizing c with
  | nil => exact ⟨rfl, rfl, rfl, rfl⟩
  | cons o os ih =>
    obtain ⟨h1, h2, h3, h4⟩ := ih (o.apply c)
    obtain ⟨g1, g2, g3, g4⟩ := RangerOption_apply_required o c
    simp only [List.map_cons, applyOptions_cons]
    exact ⟨h1.trans g1, h2.trans g2, h3.trans g3, h4.trans g4⟩

/-- The rendering of a single-series builder, clause by clause. -/
theorem CmdRanger_Args_eq_clauses {Timestamp : Type} [Argument Timestamp]
    (c : CmdRanger Timestamp) :
    c.Args = [Any.str c.key, Argument.Arg c.from_, Argument.Arg c.to_]
      ++ clauseFilterByTS c.tsFilter ++ clauseFilterByValue c.valueFilter
      ++ clauseCount c.count ++ clauseAlign c.align ++ clauseAggregation c.aggregation := by
  simp only [CmdRanger.Args, step_filterByTS, step_filterByValue, step_count, step_align,
    step_aggregation]

/-- The rendering of a multi-series builder, clause by clause. -/
theorem CmdMRanger_Args_eq_clauses {Timestamp Filter : Type} [Argument Timestamp]
    [Argument Filter] (c : CmdMRanger Timestamp Filter) :
    c.Args = [Argument.Arg c.from_, Argument.Arg c.to_]
      ++ clauseFilterByTS c.tsFilter ++ clauseFilterByValue c.valueFilter
      ++ clauseLabels c.withLabels ++ clauseCount c.count ++ clauseAlign c.align
      ++ clauseAggregation c.aggregation ++ clauseFilter c.filters
      ++ clauseGroupBy c.groupBy := by
  simp only [CmdMRanger.Args, step_filterByTS, step_filterByValue, step_labels, step_count,
    step_align, step_aggregation, step_filter, step_groupBy]

section BuilderTheorems

variable {Timestamp Filter : Type} [Argument Timestamp] [Argument Filter]

/-- C1: `CmdRanger.Args` is exactly `key, from.Arg(), to.Arg()` followed by the clauses
`FILTER_BY_TS`, `FILTER_BY_VALUE`, `COUNT`, `ALIGN`, `AGGREGATION` in this order, each present
iff its field is set (the timestamp clause iff the list is non-empty) and nothing else; a
builder fresh from `newCmdRanger` renders exactly the three required arguments. -/
theorem CmdRanger_Args_grammar :
    (∀ c : CmdRanger Timestamp,
      c.Args = [Any.str c.key, Argument.Arg c.from_, Argument.Arg c.to_]
        ++ clauseFilterByTS c.tsFilter ++ clauseFilterByValue c.valueFilter
        ++ clauseCount c.count ++ clauseAlign c.align ++ clauseAggregation c.aggregation ∧
      (clauseFilterByTS c.tsFilter ≠ [] ↔ c.tsFilter ≠ []) ∧
      (clauseFilterByValue c.valueFilter ≠ [] ↔ c.valueFilter ≠ none) ∧
      (clauseCount c.count ≠ [] ↔ c.count ≠ none) ∧
      (clauseAlign c.align ≠ [] ↔ c.align ≠ none) ∧
      (clauseAggregation c.aggregation ≠ [] ↔ c.aggregation ≠ none)) ∧
    (∀ (name : nameRanger) (key : String) (from_ to_ : Timestamp),
      (newCmdRanger name key from_ to_).Args
        = [Any.str key, Argument.Arg from_, Argument.Arg to_]) := by
  refine ⟨fun c => ⟨CmdRanger_Args_eq_clauses c, ?_, ?_, ?_, ?_, ?_⟩,
    fun name key from_ to_ => rfl⟩
  · cases c.tsFilter <;> simp [clauseFilterByTS]
  · cases c.valueFilter <;> simp [clauseFilterByValue]
  · cases c.count <;> simp [clauseCount]
  · cases c.align <;> simp [clauseAlign]
  · cases c.aggregation <;> simp [clauseAggregation]

/-- C2: `CmdMRanger.Args` is exactly `from.Arg(), to.Arg()` followed by the optional clauses
`FILTER_BY_TS`, `FILTER_BY_VALUE`, the label clause, `COUNT`, `ALIGN`, `AGGREGATION`, then the
unconditional `FILTER` with the `Arg()` of every filter in order, then the optional
`GROUPBY label REDUCE reducer`; each optional clause is present exactly when its field is set
(the timestamp clause when the list is non-empty). -/
theorem CmdMRanger_Args_grammar (c : CmdMRanger Timestamp Filter) :
    c.Args = [Argument.Arg c.from_, Argument.Arg c.to_]
      ++ clauseFilterByTS c.tsFilter ++ clauseFilterByValue c.valueFilter
      ++ clauseLabels c.withLabels ++ clauseCount c.count ++ clauseAlign c.align
      ++ clauseAggregation c.aggregation
      ++ Any.str "FILTER" :: c.filters.map Argument.Arg
      ++ clauseGroupBy c.groupBy ∧
    (clauseFilterByTS c.tsFilter ≠ [] ↔ c.tsFilter ≠ []) ∧
    (clauseFilterByValue c.valueFilter ≠ [] ↔ c.valueFilter ≠ none) ∧
    (clauseLabels c.withLabels ≠ [] ↔ c.withLabels ≠ none) ∧
    (clauseCount c.count ≠ [] ↔ c.count ≠ none) ∧
    (clauseAlign c.align ≠ [] ↔ c.align ≠ none) ∧
    (clauseAggregation c.aggregation ≠ [] ↔ c.aggregation ≠ none) ∧
    (clauseGroupBy c.groupBy ≠ [] ↔ c.groupBy ≠ none) := by
  refine ⟨CmdMRanger_Args_eq_clauses c, ?_, ?_, ?_, ?_, ?_, ?_, ?_⟩
  · cases c.tsFilter <;> simp [clauseFilterByTS]
  · cases c.valueFilter <;> simp [clauseFilterByValue]
  · rcases c.withLabels with _ | _ | _ <;> simp [clauseLabels]
  · cases c.count <;> simp [clauseCount]
  · cases c.align <;> simp [clauseAlign]
  · cases c.aggregation <;> simp [clauseAggregation]
  · cases c.groupBy <;> simp [clauseGroupBy]

/-- C3: whatever provided multi-series options are applied, in whatever order, to
`newCmdMRanger name from to fs`, the rendered arguments are `P ++ [FILTER] ++ fs.map Arg ++ G`:
`P` is the time bounds followed by the optional clauses up to `COUNT`, `ALIGN` and
`AGGREGATION`, and `G` is empty when no group-by option was applied and
`[GROUPBY, label, REDUCE, reducer]` of the last one applied otherwise. -/
theorem MRanger_filter_clause_position (name : nameMRanger) (from_ to_ : Timestamp)
    (fs : List Filter) (opts : List (MRangerOption Timestamp)) :
    let c := applyOptions (opts.map MRangerOption.apply) (newCmdMRanger name from_ to_ fs)
    let P := [Argument.Arg from_, Argument.Arg to_] ++ clauseFilterByTS c.tsFilter
      ++ clauseFilterByValue c.valueFilter ++ clauseLabels c.withLabels
      ++ clauseCount c.count ++ clauseAlign c.align ++ clauseAggregation c.aggregation
    let G := match lastGroupBy opts with
      | none => []
      | some g => [Any.str "GROUPBY", Any.str g.Label, Any.str "REDUCE", Any.str g.Reducer]
    c.Args = P ++ [Any.str "FILTER"] ++ fs.map Argument.Arg ++ G ∧
    (G = [] ↔ ∀ o ∈ opts, o.kind ≠ OptionKind.groupBy) := by
  intro c P G
  obtain ⟨_, hfrom, hto, hfs⟩ :=
    MRanger_applyOptions_required opts (newCmdMRanger name from_ to_ fs)
  have hg := MRanger_applyOptions_groupBy opts (newCmdMRanger name from_ to_ fs)
  have hG : clauseGroupBy c.groupBy = G := by
    show clauseGroupBy
      (applyOptions (opts.map MRangerOption.apply) (newCmdMRanger name from_ to_ fs)).groupBy = _
    rw [hg]
    show _ = match lastGroupBy opts with
      | none => []
      | some g => [Any.str "GROUPBY", Any.str g.Label, Any.str "REDUCE", Any.str g.Reducer]
    cases lastGroupBy opts <;> rfl
  constructor
  · have := CmdMRanger_Args_eq_clauses c
    rw [this, hG]
    show _ = ([Argument.Arg from_, Argument.Arg to_] ++ _ ++ _ ++ _ ++ _ ++ _ ++ _) ++ _ ++ _ ++ _
    have e1 : c.from_ = from_ := hfrom
    have e2 : c.to_ = to_ := hto
    have e3 : c.filters = fs := hfs
    rw [e1, e2, e3]
    simp [clauseFilter]
  · rw [← lastGroupBy_eq_none_iff]
    show (match lastGroupBy opts with
      | none => []
      | some g => [Any.str "GROUPBY", Any.str g.Label, Any.str "REDUCE", Any.str g.Reducer])
      = [] ↔ _
    cases lastGroupBy opts <;> simp

/-- C4: on a multi-series builder whose label option was never applied, (a) the rendering has
no label clause (and a fresh builder renders `from, to, FILTER, filters...`), (b) applying
`MRangerWithLabels` with zero names (no argument, or an empty non-nil slice) puts the single
token `WITHLABELS` in the label position, (c) applying it with names `n, ns...` puts
`SELECTED_LABELS n ns...` there; the three renderings are pairwise distinct. -/
theorem MRanger_labels_tristate (c : CmdMRanger Timestamp Filter) (hc : c.withLabels = none)
    (n : String) (ns : List String) :
    let pre := [Argument.Arg c.from_, Argument.Arg c.to_] ++ clauseFilterByTS c.tsFilter
      ++ clauseFilterByValue c.valueFilter
    let post := clauseCount c.count ++ clauseAlign c.align ++ clauseAggregation c.aggregation
      ++ Any.str "FILTER" :: c.filters.map Argument.Arg ++ clauseGroupBy c.groupBy
    let a := c.Args
    let b := (MRangerWithLabels none c).Args
    let b' := (MRangerWithLabels (some []) c).Args
    let s := (MRangerWithLabels (some (n :: ns)) c).Args
    a = pre ++ post ∧
    b = pre ++ [Any.str "WITHLABELS"] ++ post ∧ b' = b ∧
    s = pre ++ Any.str "SELECTED_LABELS" :: Any.str n :: ns.map Any.str ++ post ∧
    a ≠ b ∧ b ≠ s ∧ a ≠ s ∧
    (∀ (name : nameMRanger) (from_ to_ : Timestamp) (fs : List Filter),
      (newCmdMRanger name from_ to_ fs).Args
        = [Argument.Arg from_, Argument.Arg to_, Any.str "FILTER"] ++ fs.map Argument.Arg) := by
  intro pre post a b b' s
  have ha : a = pre ++ post := by
    show c.Args = _
    rw [CmdMRanger_Args_eq_clauses, hc]
    simp [pre, post, clauseLabels, clauseFilter]
  have hb : b = pre ++ [Any.str "WITHLABELS"] ++ post := by
    show (MRangerWithLabels none c).Args = _
    rw [CmdMRanger_Args_eq_clauses]
    simp [pre, post, clauseLabels, clauseFilter, MRangerWithLabels]
  have hb' : b' = b := rfl
  have hs : s = pre ++ Any.str "SELECTED_LABELS" :: Any.str n :: ns.map Any.str ++ post := by
    show (MRangerWithLabels (some (n :: ns)) c).Args = _
    rw [CmdMRanger_Args_eq_clauses]
    simp [pre, post, clauseLabels, clauseFilter, MRangerWithLabels]
  refine ⟨ha, hb, hb', hs, ?_, ?_, ?_, ?_⟩
  · intro h
    have := congrArg List.length h
    rw [ha, hb] at this
    simp at this
  · intro h
    have := congrArg List.length h
    rw [hb, hs] at this
    simp at this
    omega
  · intro h
    have := congrArg List.length h
    rw [ha, hs] at this
    simp at this
    omega
  · intro name from_ to_ fs
    rw [CmdMRanger_Args_eq_clauses]
    simp [newCmdMRanger, clauseFilterByTS, clauseFilterByValue, clauseLabels, clauseCount,
      clauseAlign, clauseAggregation, clauseFilter, clauseGroupBy]

/-- C4, at the names `region`, `host` on a fresh `TS.MRANGE - +` builder with filter `a=b`. -/
theorem MRanger_labels_tristate_witness :
    (newCmdMRanger nameMRange SpecTimestamp.min SpecTimestamp.max
        [SpecFilter.mk "a=b"]).withLabels = none ∧
    (MRangerWithLabels none (newCmdMRanger nameMRange SpecTimestamp.min SpecTimestamp.max
        [SpecFilter.mk "a=b"])).Args
      = [Any.str "-", Any.str "+", Any.str "WITHLABELS", Any.str "FILTER", Any.str "a=b"] ∧
    (MRangerWithLabels (some ["region", "host"]) (newCmdMRanger nameMRange SpecTimestamp.min
        SpecTimestamp.max [SpecFilter.mk "a=b"])).Args
      = [Any.str "-", Any.str "+", Any.str "SELECTED_LABELS", Any.str "region", Any.str "host",
          Any.str "FILTER", Any.str "a=b"] :=
  have h := MRanger_labels_tristate (newCmdMRanger nameMRange SpecTimestamp.min
    SpecTimestamp.max [SpecFilter.mk "a=b"]) rfl "region" ["host"]
  ⟨rfl, h.2.1, h.2.2.2.1⟩

/-- C5: `CmdMGet.Args` is the label clause (nothing when `MGetWithLabels` was never applied,
`WITHLABELS` when applied with zero names, `SELECTED_LABELS` and the names in order when
applied with at least one) followed by `FILTER` and the `Arg()` of each filter in order; with
no filter and no label option it is exactly `[FILTER]`. -/
theorem CmdMGet_Args_grammar :
    (∀ c : CmdMGet Filter,
      c.Args = clauseLabels c.withLabels ++ Any.str "FILTER" :: c.filters.map Argument.Arg) ∧
    (∀ fs : List Filter, (newCmdMGet fs).Args = Any.str "FILTER" :: fs.map Argument.Arg) ∧
    (∀ c : CmdMGet Filter,
      (MGetWithLabels none c).Args
        = Any.str "WITHLABELS" :: Any.str "FILTER" :: c.filters.map Argument.Arg ∧
      (MGetWithLabels (some []) c).Args
        = Any.str "WITHLABELS" :: Any.str "FILTER" :: c.filters.map Argument.Arg) ∧
    (∀ (c : CmdMGet Filter) (n : String) (ns : List String),
      (MGetWithLabels (some (n :: ns)) c).Args
        = Any.str "SELECTED_LABELS" :: Any.str n :: ns.map Any.str
          ++ Any.str "FILTER" :: c.filters.map Argument.Arg) ∧
    (newCmdMGet ([] : List Filter)).Args = [Any.str "FILTER"] := by
  have key : ∀ c : CmdMGet Filter,
      c.Args = clauseLabels c.withLabels ++ Any.str "FILTER" :: c.filters.map Argument.Arg := by
    intro c
    have h := step_labels c.withLabels []
    simp only [List.nil_append] at h
    simp only [CmdMGet.Args, List.nil_append, h, step_filter, clauseFilter]
  refine ⟨key, fun fs => ?_, fun c => ⟨?_, ?_⟩, fun c n ns => ?_, ?_⟩
  · rw [key]; rfl
  · rw [key]; rfl
  · rw [key]; rfl
  · rw [key]; simp [MGetWithLabels, clauseLabels]
  · rw [key]; rfl

/-- C6: last writer wins. Applying a provided option and then a provided option of the same
kind leaves the builder in the state, and with the rendering, that the second alone gives: on
the single-series builder, on the multi-series builder, and for `MGetWithLabels`. -/
theorem option_last_writer_wins (o₁ o₂ : RangerOption Timestamp) (c : CmdRanger Timestamp)
    (m₁ m₂ : MRangerOption Timestamp) (cm : CmdMRanger Timestamp Filter)
    (l₁ l₂ : Option (List String)) (cg : CmdMGet Filter)
    (ho : o₁.kind = o₂.kind) (hm : m₁.kind = m₂.kind) :
    (o₂.apply (o₁.apply c) = o₂.apply c ∧
      (o₂.apply (o₁.apply c)).Args = (o₂.apply c).Args) ∧
    (m₂.apply (m₁.apply cm) = m₂.apply cm ∧
      (m₂.apply (m₁.apply cm)).Args = (m₂.apply cm).Args) ∧
    (MGetWithLabels l₂ (MGetWithLabels l₁ cg) = MGetWithLabels l₂ cg ∧
      (MGetWithLabels l₂ (MGetWithLabels l₁ cg)).Args = (MGetWithLabels l₂ cg).Args) := by
  have h1 : o₂.apply (o₁.apply c) = o₂.apply c := by
    cases o₁ <;> cases o₂ <;> first | rfl | (simp [RangerOption.kind] at ho)
  have h2 : m₂.apply (m₁.apply cm) = m₂.apply cm := by
    cases m₁ with
    | labels n₁ =>
      cases m₂ with
      | labels n₂ => cases n₁ <;> cases n₂ <;> rfl
      | _ => simp [MRangerOption.kind] at hm
    | _ =>
      cases m₂ with
      | labels n₂ => simp [MRangerOption.kind] at hm
      | _ => first | rfl | (simp [MRangerOption.kind] at hm)
  have h3 : MGetWithLabels l₂ (MGetWithLabels l₁ cg) = MGetWithLabels l₂ cg := by
    cases l₁ <;> cases l₂ <;> rfl
  exact ⟨⟨h1, by rw [h1]⟩, ⟨h2, by rw [h2]⟩, ⟨h3, by rw [h3]⟩⟩

/-- C6, at count 10 then count 20 on a fresh `TS.RANGE k - +` builder (one `COUNT` clause, with
20), group-by `a sum` then `b max` on a fresh multi-series builder, and labels `x` then none
on a fresh multi-get builder. -/
theorem option_last_writer_wins_witness :
    (RangerOption.count 10 : RangerOption SpecTimestamp).kind
      = (RangerOption.count 20 : RangerOption SpecTimestamp).kind ∧
    (MRangerOption.groupBy "a" "sum" : MRangerOption SpecTimestamp).kind
      = (MRangerOption.groupBy "b" "max" : MRangerOption SpecTimestamp).kind ∧
    (RangerWithCount 20 (RangerWithCount 10
        (newCmdRanger nameRange "k" SpecTimestamp.min SpecTimestamp.max))).Args
      = [Any.str "k", Any.str "-", Any.str "+", Any.str "COUNT", Any.int64 20] ∧
    (MRangerWithGroupBy "b" "max" (MRangerWithGroupBy "a" "sum"
        (newCmdMRanger nameMRange SpecTimestamp.min SpecTimestamp.max
          [SpecFilter.mk "l=v"]))).Args
      = [Any.str "-", Any.str "+", Any.str "FILTER", Any.str "l=v", Any.str "GROUPBY",
          Any.str "b", Any.str "REDUCE", Any.str "max"] ∧
    (MGetWithLabels none (MGetWithLabels (some ["x"]) (newCmdMGet [SpecFilter.mk "l=v"]))).Args
      = [Any.str "WITHLABELS", Any.str "FILTER", Any.str "l=v"] :=
  have h := option_last_writer_wins (RangerOption.count 10) (RangerOption.count 20)
    (newCmdRanger nameRange "k" SpecTimestamp.min SpecTimestamp.max)
    (MRangerOption.groupBy "a" "sum") (MRangerOption.groupBy "b" "max")
    (newCmdMRanger nameMRange SpecTimestamp.min SpecTimestamp.max [SpecFilter.mk "l=v"])
    (some ["x"]) none (newCmdMGet [SpecFilter.mk "l=v"]) rfl rfl
  ⟨rfl, rfl, h.1.2.trans rfl, h.2.1.2.trans rfl, h.2.2.2.trans rfl⟩

/-- C7: the order of application does not matter. Two provided options of different kinds
commute, on the single-series and on the multi-series builder, as states and as renderings;
hence two permutations of a list of options of pairwise different kinds give the same state and
the same rendered arguments. -/
theorem option_order_irrelevant (o₁ o₂ : RangerOption Timestamp) (c : CmdRanger Timestamp)
    (m₁ m₂ : MRangerOption Timestamp) (cm : CmdMRanger Timestamp Filter)
    (os os' : List (RangerOption Timestamp)) (ms ms' : List (MRangerOption Timestamp))
    (ho : o₁.kind ≠ o₂.kind) (hm : m₁.kind ≠ m₂.kind)
    (hos : os.Pairwise (fun a b => a.kind ≠ b.kind)) (hperm : os.Perm os')
    (hms : ms.Pairwise (fun a b => a.kind ≠ b.kind)) (hmperm : ms.Perm ms') :
    (o₂.apply (o₁.apply c) = o₁.apply (o₂.apply c) ∧
      (o₂.apply (o₁.apply c)).Args = (o₁.apply (o₂.apply c)).Args) ∧
    (m₂.apply (m₁.apply cm) = m₁.apply (m₂.apply cm) ∧
      (m₂.apply (m₁.apply cm)).Args = (m₁.apply (m₂.apply cm)).Args) ∧
    (applyOptions (os.map RangerOption.apply) c = applyOptions (os'.map RangerOption.apply) c ∧
      (applyOptions (os.map RangerOption.apply) c).Args
        = (applyOptions (os'.map RangerOption.apply) c).Args) ∧
    (applyOptions (ms.map MRangerOption.apply) cm
        = applyOptions (ms'.map MRangerOption.apply) cm ∧
      (applyOptions (ms.map MRangerOption.apply) cm).Args
        = (applyOptions (ms'.map MRangerOption.apply) cm).Args) := by
  have h1 := (RangerOption_apply_comm o₁ o₂ ho c).symm
  have h2 := (MRangerOption_apply_comm m₁ m₂ hm cm).symm
  have h3 := applyOptions_perm RangerOption.apply (fun a b => a.kind ≠ b.kind)
    (fun _ _ h => Ne.symm h) (fun a b h c => RangerOption_apply_comm a b h c) hperm hos c
  have h4 := applyOptions_perm (MRangerOption.apply : _ → OptionMRanger Timestamp Filter)
    (fun a b => a.kind ≠ b.kind)
    (fun _ _ h => Ne.symm h) (fun a b h c => MRangerOption_apply_comm a b h c) hmperm hms cm
  exact ⟨⟨h1, by rw [h1]⟩, ⟨h2, by rw [h2]⟩, ⟨h3, by rw [h3]⟩, ⟨h4, by rw [h4]⟩⟩

/-- C7, at aggregation and count applied both ways round to a fresh `TS.REVRANGE k - +`
builder, and group-by, labels and count in two orders on a fresh multi-series builder. -/
theorem option_order_irrelevant_witness :
    (RangerOption.aggregation "avg" (Duration.mk 60000000000) : RangerOption SpecTimestamp).kind
      ≠ (RangerOption.count 5 : RangerOption SpecTimestamp).kind ∧
    (MRangerOption.groupBy "region" "sum" : MRangerOption SpecTimestamp).kind
      ≠ (MRangerOption.count 5 : MRangerOption SpecTimestamp).kind ∧
    (RangerWithCount 5 (RangerWithAggregation "avg" (Duration.mk 60000000000)
        (newCmdRanger nameRevRange "k" SpecTimestamp.min SpecTimestamp.max))).Args
      = [Any.str "k", Any.str "-", Any.str "+", Any.str "COUNT", Any.int64 5,
          Any.str "AGGREGATION", Any.str "avg", Any.int64 60000] ∧
    (RangerWithAggregation "avg" (Duration.mk 60000000000) (RangerWithCount 5
        (newCmdRanger nameRevRange "k" SpecTimestamp.min SpecTimestamp.max))).Args
      = [Any.str "k", Any.str "-", Any.str "+", Any.str "COUNT", Any.int64 5,
          Any.str "AGGREGATION", Any.str "avg", Any.int64 60000] ∧
    (applyOptions ([MRangerOption.groupBy "region" "sum", MRangerOption.labels none,
          MRangerOption.count 5].map MRangerOption.apply)
        (newCmdMRanger nameMRange SpecTimestamp.min SpecTimestamp.max
          [SpecFilter.mk "l=v"])).Args
      = (applyOptions ([MRangerOption.count 5, MRangerOption.groupBy "region" "sum",
          MRangerOption.labels none].map MRangerOption.apply)
        (newCmdMRanger nameMRange SpecTimestamp.min SpecTimestamp.max
          [SpecFilter.mk "l=v"])).Args :=
  have h := option_order_irrelevant
    (RangerOption.aggregation "avg" (Duration.mk 60000000000)) (RangerOption.count 5)
    (newCmdRanger nameRevRange "k" SpecTimestamp.min SpecTimestamp.max)
    (MRangerOption.groupBy "region" "sum") (MRangerOption.count 5)
    (newCmdMRanger nameMRange SpecTimestamp.min SpecTimestamp.max [SpecFilter.mk "l=v"])
    [RangerOption.aggregation "avg" (Duration.mk 60000000000), RangerOption.count 5]
    [RangerOption.count 5, RangerOption.aggregation "avg" (Duration.mk 60000000000)]
    [MRangerOption.groupBy "region" "sum", MRangerOption.labels none, MRangerOption.count 5]
    [MRangerOption.count 5, MRangerOption.groupBy "region" "sum", MRangerOption.labels none]
    (by decide) (by decide) (by simp [RangerOption.kind]) (List.Perm.swap _ _ _)
    (by simp [MRangerOption.kind])
    ((List.perm_cons_append_cons (MRangerOption.count 5) (List.Perm.refl _) :
      List.Perm _ ([MRangerOption.groupBy "region" "sum", MRangerOption.labels none]
        ++ MRangerOption.count 5 :: [])).symm)
  ⟨by decide, by decide, h.1.2.trans rfl, h.1.2.symm.trans rfl, h.2.2.2.2⟩

/-- C8: options never touch required fields. A provided option leaves `name`, `key`, `from`,
`to` of a `CmdRanger` unchanged, `name`, `from`, `to`, `filters` of a `CmdMRanger` unchanged,
and `MGetWithLabels` leaves `filters` unchanged; every optional field is unchanged too unless
the option is of that field's kind. So after any sequence of provided options the
single-series arguments start with `key, from.Arg(), to.Arg()` and the multi-series ones with
`from.Arg(), to.Arg()`. -/
theorem options_frame (o : RangerOption Timestamp) (c : CmdRanger Timestamp)
    (m : MRangerOption Timestamp) (cm : CmdMRanger Timestamp Filter)
    (l : Option (List String)) (cg : CmdMGet Filter)
    (os : List (RangerOption Timestamp)) (ms : List (MRangerOption Timestamp)) :
    ((o.apply c).name = c.name ∧ (o.apply c).key = c.key ∧ (o.apply c).from_ = c.from_ ∧
      (o.apply c).to_ = c.to_) ∧
    (((o.apply c).tsFilter = c.tsFilter ∨ o.kind = OptionKind.tsFilter) ∧
      ((o.apply c).valueFilter = c.valueFilter ∨ o.kind = OptionKind.valueFilter) ∧
      ((o.apply c).count = c.count ∨ o.kind = OptionKind.count) ∧
      ((o.apply c).align = c.align ∨ o.kind = OptionKind.align) ∧
      ((o.apply c).aggregation = c.aggregation ∨ o.kind = OptionKind.aggregation)) ∧
    ((m.apply cm).name = cm.name ∧ (m.apply cm).from_ = cm.from_ ∧
      (m.apply cm).to_ = cm.to_ ∧ (m.apply cm).filters = cm.filters) ∧
    (((m.apply cm).tsFilter = cm.tsFilter ∨ m.kind = OptionKind.tsFilter) ∧
      ((m.apply cm).valueFilter = cm.valueFilter ∨ m.kind = OptionKind.valueFilter) ∧
      ((m.apply cm).withLabels = cm.withLabels ∨ m.kind = OptionKind.labels) ∧
      ((m.apply cm).count = cm.count ∨ m.kind = OptionKind.count) ∧
      ((m.apply cm).align = cm.align ∨ m.kind = OptionKind.align) ∧
      ((m.apply cm).aggregation = cm.aggregation ∨ m.kind = OptionKind.aggregation) ∧
      ((m.apply cm).groupBy = cm.groupBy ∨ m.kind = OptionKind.groupBy)) ∧
    (MGetWithLabels l cg).filters = cg.filters ∧
    (∃ rest, (applyOptions (os.map RangerOption.apply) c).Args
      = [Any.str c.key, Argument.Arg c.from_, Argument.Arg c.to_] ++ rest) ∧
    (∃ rest, (applyOptions (ms.map MRangerOption.apply) cm).Args
      = [Argument.Arg cm.from_, Argument.Arg cm.to_] ++ rest) := by
  refine ⟨RangerOption_apply_required o c, ?_, MRangerOption_apply_required m cm, ?_, ?_, ?_, ?_⟩
  · cases o <;>
      simp [RangerOption.kind, RangerOption.apply, RangerWithTSFilter, RangerWithValueFilter,
        RangerWithCount, RangerWithAlign, RangerWithAggregation]
  · cases m with
    | labels n => cases n <;> simp [MRangerOption.kind, MRangerOption.apply, MRangerWithLabels]
    | _ =>
      simp [MRangerOption.kind, MRangerOption.apply, MRangerWithTSFilter,
        MRangerWithValueFilter, MRangerWithCount, MRangerWithAlign, MRangerWithAggregation,
        MRangerWithGroupBy]
  · cases l <;> rfl
  · obtain ⟨_, hk, hf, ht⟩ := Ranger_applyOptions_required os c
    rw [CmdRanger_Args_eq_clauses, hk, hf, ht]
    simp only [List.append_assoc]
    exact ⟨_, rfl⟩
  · obtain ⟨_, hf, ht, _⟩ := MRanger_applyOptions_required ms cm
    rw [CmdMRanger_Args_eq_clauses, hf, ht]
    simp only [List.append_assoc]
    exact ⟨_, rfl⟩

end BuilderTheorems

section DecoderTheorems

variable {Timestamp Filter Label E : Type} [Argument Timestamp] [Argument Filter]

/-- C9: when the transport's reply is a sequence of `n` pairs `[t_i, s_i]`, `t_i` a 64-bit
integer and `s_i` a string (which `parseString` decodes to itself), `Range` and `RevRange`
return, with the transport's error, exactly `n` data points in the order of the reply, the
`i`-th with the timestamp `time.UnixMilli(t_i)`, which is the instant `t_i` milliseconds after
the Unix epoch, and with the value `strconv.ParseFloat` gives for `s_i`. -/
theorem Range_decodes_pairs (c : Client Label E) (key : String) (from_ to_ : Timestamp)
    (options : List (OptionRanger Timestamp)) (pts : List (Int × String)) (err : Option E)
    (hps : ∀ s, c.helpers.parseString (Any.str s) = .ok s)
    (h64 : ∀ p ∈ pts, -2 ^ 63 ≤ p.1 ∧ p.1 < 2 ^ 63)
    (hdo : ∀ name : nameRanger,
      c.Do (applyOptions options (newCmdRanger name key from_ to_)).Name
          (applyOptions options (newCmdRanger name key from_ to_)).Args
        = (Any.arr (pts.map (fun p => Any.arr [Any.int64 p.1, Any.str p.2])), err)) :
    c.Range key from_ to_ options
      = .ok (pts.map (fun p =>
          { Timestamp := Time.ofUnixMilli p.1, Value := (c.helpers.ParseFloat p.2).1 }), err) ∧
    c.RevRange key from_ to_ options
      = .ok (pts.map (fun p =>
          { Timestamp := Time.ofUnixMilli p.1, Value := (c.helpers.ParseFloat p.2).1 }), err) ∧
    (∀ p ∈ pts,
      (Time.ofUnixMilli p.1).sec * 1000000000 + (Time.ofUnixMilli p.1).nsec = p.1 * 1000000 ∧
      0 ≤ (Time.ofUnixMilli p.1).nsec ∧ (Time.ofUnixMilli p.1).nsec < 1000000000) := by
  have hr : ∀ name : nameRanger, c.ranger name key from_ to_ options
      = .ok (pts.map (fun p =>
          { Timestamp := Time.ofUnixMilli p.1, Value := (c.helpers.ParseFloat p.2).1 }),
        err) := by
    intro name
    simp only [Client.ranger, hdo name, parseDataPoints_pairs c.helpers hps pts]
    rfl
  refine ⟨hr nameRange, hr nameRevRange, fun p hp => ?_⟩
  obtain ⟨h1, h2, h3, _⟩ := Time.ofUnixMilli_instant p.1 (h64 p hp).1 (h64 p hp).2
  exact ⟨h1, h2, h3⟩

/-- C9, at the reply `[[1000, "3.5"], [2000, "4.25"]]`: two data points, at 1 s and 2 s after
the epoch, with the values 3.5 and 4.25. -/
theorem Range_decodes_pairs_witness :
    (∀ s, (constClient (Any.arr [Any.arr [Any.int64 1000, Any.str "3.5"],
        Any.arr [Any.int64 2000, Any.str "4.25"]]) none).helpers.parseString (Any.str s)
      = .ok s) ∧
    (∀ p ∈ [((1000 : Int), "3.5"), (2000, "4.25")], -2 ^ 63 ≤ p.1 ∧ p.1 < 2 ^ 63) ∧
    (constClient (Any.arr [Any.arr [Any.int64 1000, Any.str "3.5"],
        Any.arr [Any.int64 2000, Any.str "4.25"]]) none).Range "k" SpecTimestamp.min
        SpecTimestamp.max [RangerWithCount 2]
      = .ok ([{ Timestamp := { sec := 1, nsec := 0 }, Value := { bits := 0x400C000000000000 } },
          { Timestamp := { sec := 2, nsec := 0 }, Value := { bits := 0x4011000000000000 } }],
        none) :=
  have h64 : ∀ p ∈ [((1000 : Int), "3.5"), (2000, "4.25")], -2 ^ 63 ≤ p.1 ∧ p.1 < 2 ^ 63 := by
    intro p hp
    simp only [List.mem_cons, List.mem_singleton, List.not_mem_nil, or_false] at hp
    rcases hp with rfl | rfl <;> norm_num
  ⟨fun _ => rfl, h64,
    (Range_decodes_pairs (constClient (Any.arr [Any.arr [Any.int64 1000, Any.str "3.5"],
        Any.arr [Any.int64 2000, Any.str "4.25"]]) none) "k" SpecTimestamp.min
      SpecTimestamp.max [RangerWithCount 2] [(1000, "3.5"), (2000, "4.25")] none
      (fun _ => rfl) h64 (fun _ => rfl)).1.trans rfl⟩

/-- C10: a reply element `[key, labelArray, dataPointArray]` decodes to the time series with
the decoded key, one label per element of `labelArray` in order and one data point per pair of
`dataPointArray` in order, each decoded as in the single-series case; when the second item is
not an array the labels are empty and key and data points are the same, without a panic. -/
theorem parseTimeSeries_decodes (h : Helpers Label) (key : Any) (k : String)
    (lps : List (List Any × Label)) (pts : List (Int × String)) (x : Any)
    (hkey : h.parseString key = .ok k)
    (hps : ∀ s, h.parseString (Any.str s) = .ok s)
    (hl : ∀ p ∈ lps, h.parseLabel p.1 = .ok p.2)
    (hx : ∀ l, x ≠ Any.arr l) :
    parseTimeSeries h [key, Any.arr (lps.map (fun p => Any.arr p.1)),
        Any.arr (pts.map (fun p => Any.arr [Any.int64 p.1, Any.str p.2]))]
      = .ok { Key := k, Labels := lps.map (fun p => p.2),
              DataPoints := pts.map (fun p =>
                { Timestamp := Time.ofUnixMilli p.1, Value := (h.ParseFloat p.2).1 }) } ∧
    parseTimeSeries h [key, x,
        Any.arr (pts.map (fun p => Any.arr [Any.int64 p.1, Any.str p.2]))]
      = .ok { Key := k, Labels := [],
              DataPoints := pts.map (fun p =>
                { Timestamp := Time.ofUnixMilli p.1, Value := (h.ParseFloat p.2).1 }) } := by
  have hls : (lps.map (fun p => Any.arr p.1)).mapM
      (fun il => do h.parseLabel (← assertSlice il)) = .ok (lps.map (fun p => p.2)) := by
    apply mapM_ok_of_forall
    intro p hp
    simp only [assertSlice, bind, Except.bind]
    exact hl p hp
  have hds := parseDataPoints_pairs h hps pts
  simp only [bind, Except.bind] at hls hds
  constructor
  · simp only [parseTimeSeries, index, List.getElem?_cons_succ, List.getElem?_cons_zero, bind,
      Except.bind, hls, hds, hkey]
    rfl
  · cases x with
    | arr l => exact absurd rfl (hx l)
    | _ =>
      simp only [parseTimeSeries, index, List.getElem?_cons_succ, List.getElem?_cons_zero,
        bind, Except.bind, hds, hkey, pure, Except.pure]

/-- C10, at the element `["series-a", [["region","us"]], [[1000,"1.0"]]]`, and at the same
element with the integer 0 in place of the label array. -/
theorem parseTimeSeries_decodes_witness :
    specHelpers.parseString (Any.str "series-a") = .ok "series-a" ∧
    (∀ s, specHelpers.parseString (Any.str s) = .ok s) ∧
    (∀ p ∈ [([Any.str "region", Any.str "us"], SpecLabel.mk "region" "us")],
      specHelpers.parseLabel p.1 = .ok p.2) ∧
    (∀ l, Any.int64 0 ≠ Any.arr l) ∧
    parseTimeSeries specHelpers [Any.str "series-a",
        Any.arr [Any.arr [Any.str "region", Any.str "us"]],
        Any.arr [Any.arr [Any.int64 1000, Any.str "1.0"]]]
      = .ok { Key := "series-a", Labels := [SpecLabel.mk "region" "us"],
              DataPoints := [{ Timestamp := { sec := 1, nsec := 0 },
                               Value := { bits := 0x3FF0000000000000 } }] } ∧
    parseTimeSeries specHelpers [Any.str "series-a", Any.int64 0,
        Any.arr [Any.arr [Any.int64 1000, Any.str "1.0"]]]
      = .ok { Key := "series-a", Labels := [],
              DataPoints := [{ Timestamp := { sec := 1, nsec := 0 },
                               Value := { bits := 0x3FF0000000000000 } }] } :=
  have hl : ∀ p ∈ [([Any.str "region", Any.str "us"], SpecLabel.mk "region" "us")],
      specHelpers.parseLabel p.1 = .ok p.2 := by
    intro p hp
    simp only [List.mem_singleton] at hp
    subst hp
    rfl
  have hx : ∀ l, Any.int64 0 ≠ Any.arr l := fun _ hne => Any.noConfusion hne
  have h := parseTimeSeries_decodes specHelpers (Any.str "series-a") "series-a"
    [([Any.str "region", Any.str "us"], SpecLabel.mk "region" "us")] [(1000, "1.0")]
    (Any.int64 0) rfl (fun _ => rfl) hl hx
  ⟨rfl, fun _ => rfl, hl, hx, h.1.trans (by rfl), h.2.trans (by rfl)⟩

/-- C11: the decoders do not degrade gracefully on every reply shape. With a nil transport
error, a reply sequence whose element is the integer 7 makes `Range`, `MRange` and `MGet` panic
on the unchecked assertion `is[i].([]interface{})`, a nil reply makes `Get` panic on
`res.([]interface{})`, arrays with too few items make `parseDataPoint`, `parseTimeSeries` and
`parseLastDatapoint` panic on an index out of range, and a pair whose first item is not an
`int64` makes `parseDataPoint` panic on `is[0].(int64)`; none of this depends on what
`parseString`, `parseLabel` and `ParseFloat` do, except the last, stated with the sample
helpers. -/
theorem decoders_panic_on_deviating_shapes (h : Helpers Label) (key : String)
    (from_ to_ : Timestamp) (filters : List Filter)
    (ro : List (OptionRanger Timestamp)) (mo : List (OptionMRanger Timestamp Filter))
    (go : List (OptionMGet Filter)) :
    (Client.mk (fun _ _ => (Any.arr [Any.int64 7], (none : Option E))) h).Range key from_ to_ ro
      = .error Panic.typeAssertion ∧
    (Client.mk (fun _ _ => (Any.arr [Any.int64 7], (none : Option E))) h).MRange from_ to_
        filters mo
      = .error Panic.typeAssertion ∧
    (Client.mk (fun _ _ => (Any.arr [Any.int64 7], (none : Option E))) h).MGet filters go
      = .error Panic.typeAssertion ∧
    (Client.mk (fun _ _ => (Any.nil, (none : Option E))) h).Get key
      = .error Panic.typeAssertion ∧
    (Client.mk (fun _ _ => (Any.arr [Any.arr [Any.int64 1000]], (none : Option E))) h).Range
        key from_ to_ ro
      = .error Panic.indexOutOfRange ∧
    parseDataPoint h [] = .error Panic.indexOutOfRange ∧
    parseTimeSeries h [Any.str "k"] = .error Panic.indexOutOfRange ∧
    parseLastDatapoint h [Any.str "k"] = .error Panic.indexOutOfRange ∧
    parseDataPoint specHelpers [Any.str "1000", Any.str "3.5"] = .error Panic.typeAssertion := by
  refine ⟨?_, ?_, ?_, rfl, ?_, rfl, rfl, rfl, rfl⟩
  · simp only [Client.Range, ranger_eq_decodeSeq]
    rfl
  · simp only [Client.MRange, mRanger_eq_decodeSeq]
    rfl
  · simp only [MGet_eq_decodeSeq]
    rfl
  · simp only [Client.Range, ranger_eq_decodeSeq]
    rfl

/-- C12: when the transport's reply is not a sequence (nil, an integer, a string, a float),
`Range`, `RevRange`, `MRange`, `MRevRange` and `MGet` return the empty sequence together with
the transport's error, so with a nil error whenever the transport's error is nil. -/
theorem non_sequence_reply_is_empty (c : Client Label E) (key : String)
    (from_ to_ : Timestamp) (filters : List Filter)
    (ro : List (OptionRanger Timestamp)) (mo : List (OptionMRanger Timestamp Filter))
    (go : List (OptionMGet Filter)) (reply : Any) (err : Option E)
    (hreply : ∀ l, reply ≠ Any.arr l)
    (hdo : ∀ name args, c.Do name args = (reply, err)) :
    c.Range key from_ to_ ro = .ok ([], err) ∧
    c.RevRange key from_ to_ ro = .ok ([], err) ∧
    c.MRange from_ to_ filters mo = .ok ([], err) ∧
    c.MRevRange from_ to_ filters mo = .ok ([], err) ∧
    c.MGet filters go = .ok ([], err) := by
  refine ⟨?_, ?_, ?_, ?_, ?_⟩
  · simp only [Client.Range, ranger_eq_decodeSeq, hdo, decodeSeq_of_not_arr _ _ hreply]
    rfl
  · simp only [Client.RevRange, ranger_eq_decodeSeq, hdo, decodeSeq_of_not_arr _ _ hreply]
    rfl
  · simp only [Client.MRange, mRanger_eq_decodeSeq, hdo, decodeSeq_of_not_arr _ _ hreply]
    rfl
  · simp only [Client.MRevRange, mRanger_eq_decodeSeq, hdo, decodeSeq_of_not_arr _ _ hreply]
    rfl
  · simp only [MGet_eq_decodeSeq, hdo, decodeSeq_of_not_arr _ _ hreply]
    rfl

/-- C12, at the nil reply with a nil error: `TS.RANGE k - +` gives no point and no error. -/
theorem non_sequence_reply_is_empty_witness :
    (∀ l, Any.nil ≠ Any.arr l) ∧
    (∀ name args, (constClient Any.nil none).Do name args = (Any.nil, none)) ∧
    (constClient Any.nil none).Range "k" SpecTimestamp.min SpecTimestamp.max [] = .ok ([], none) ∧
    (constClient Any.nil none).MGet [SpecFilter.mk "l=v"] [] = .ok ([], none) :=
  have hn : ∀ l, Any.nil ≠ Any.arr l := fun _ hne => Any.noConfusion hne
  have h := non_sequence_reply_is_empty (constClient Any.nil none) "k" SpecTimestamp.min
    SpecTimestamp.max [SpecFilter.mk "l=v"] [] [] [] Any.nil none hn (fun _ _ => rfl)
  ⟨hn, fun _ _ => rfl, h.1, h.2.2.2.2⟩

/-- C13: errors are exactly the transport's. Whenever `Range`, `RevRange`, `MRange`,
`MRevRange`, `MGet` or `Get` returns, the error it returns is the error of the transport's `Do`
call for the rendered command, unchanged (so it is nil iff the transport's is). -/
theorem returned_error_is_transports (c : Client Label E) (key : String)
    (from_ to_ : Timestamp) (filters : List Filter)
    (ro : List (OptionRanger Timestamp)) (mo : List (OptionMRanger Timestamp Filter))
    (go : List (OptionMGet Filter)) :
    (∀ r, c.Range key from_ to_ ro = .ok r →
      r.2 = (c.Do (applyOptions ro (newCmdRanger nameRange key from_ to_)).Name
        (applyOptions ro (newCmdRanger nameRange key from_ to_)).Args).2) ∧
    (∀ r, c.RevRange key from_ to_ ro = .ok r →
      r.2 = (c.Do (applyOptions ro (newCmdRanger nameRevRange key from_ to_)).Name
        (applyOptions ro (newCmdRanger nameRevRange key from_ to_)).Args).2) ∧
    (∀ r, c.MRange from_ to_ filters mo = .ok r →
      r.2 = (c.Do (applyOptions mo (newCmdMRanger nameMRange from_ to_ filters)).Name
        (applyOptions mo (newCmdMRanger nameMRange from_ to_ filters)).Args).2) ∧
    (∀ r, c.MRevRange from_ to_ filters mo = .ok r →
      r.2 = (c.Do (applyOptions mo (newCmdMRanger nameMRevRange from_ to_ filters)).Name
        (applyOptions mo (newCmdMRanger nameMRevRange from_ to_ filters)).Args).2) ∧
    (∀ r, c.MGet filters go = .ok r →
      r.2 = (c.Do (applyOptions go (newCmdMGet filters)).Name
        (applyOptions go (newCmdMGet filters)).Args).2) ∧
    (∀ r, c.Get key = .ok r → r.2 = (c.Do "TS.GET" [Any.str key]).2) := by
  refine ⟨fun r hr => ?_, fun r hr => ?_, fun r hr => ?_, fun r hr => ?_, fun r hr => ?_,
    fun r hr => ?_⟩
  · rw [Client.Range, ranger_eq_decodeSeq] at hr
    exact snd_of_map_pair_eq_ok _ _ r hr
  · rw [Client.RevRange, ranger_eq_decodeSeq] at hr
    exact snd_of_map_pair_eq_ok _ _ r hr
  · rw [Client.MRange, mRanger_eq_decodeSeq] at hr
    exact snd_of_map_pair_eq_ok _ _ r hr
  · rw [Client.MRevRange, mRanger_eq_decodeSeq] at hr
    exact snd_of_map_pair_eq_ok _ _ r hr
  · rw [MGet_eq_decodeSeq] at hr
    exact snd_of_map_pair_eq_ok _ _ r hr
  · obtain ⟨Do, helpers⟩ := c
    simp only [Client.Get, newCmdGet, CmdGet.Name, CmdGet.Args] at hr ⊢
    generalize Do "TS.GET" [Any.str key] = d at hr ⊢
    obtain ⟨res, err⟩ := d
    cases err with
    | some e =>
      have h' : (DataPoint.zero, some e) = r := Except.ok.inj hr
      rw [← h']
    | none =>
      simp only [bind, Except.bind] at hr
      split at hr
      · cases hr
      · split at hr
        · cases hr
        · have h' := Except.ok.inj hr
          rw [← h']

/-- C13, at a transport that answers `[[1000, "3.5"]]` with the error `timeout`: `Range`
returns and its error is `timeout`. -/
theorem returned_error_is_transports_witness :
    (constClient (Any.arr [Any.arr [Any.int64 1000, Any.str "3.5"]]) (some "timeout")).Range "k"
        SpecTimestamp.min SpecTimestamp.max []
      = .ok ([{ Timestamp := { sec := 1, nsec := 0 }, Value := { bits := 0x400C000000000000 } }],
          some "timeout") ∧
    (([{ Timestamp := { sec := 1, nsec := 0 }, Value := { bits := 0x400C000000000000 } }],
        some "timeout") : List DataPoint × Option String).2 = some "timeout" :=
  ⟨rfl, (returned_error_is_transports
    (constClient (Any.arr [Any.arr [Any.int64 1000, Any.str "3.5"]]) (some "timeout")) "k"
    SpecTimestamp.min SpecTimestamp.max ([] : List SpecFilter) [] [] []).1 _ rfl⟩

/-- C14: `Get` returns the zero `DataPoint` and the transport's error when that error is
non-nil, whatever the reply is and without decoding it; with a nil error and a reply `[t, s]`
it returns the data point decoded from the pair and a nil error. -/
theorem Get_error_or_data_point (c : Client Label E) (key : String) (reply : Any) (e : E)
    (t : Int) (s : String)
    (hps : ∀ s, c.helpers.parseString (Any.str s) = .ok s) :
    (c.Do "TS.GET" [Any.str key] = (reply, some e) → c.Get key = .ok (DataPoint.zero, some e)) ∧
    (c.Do "TS.GET" [Any.str key] = (Any.arr [Any.int64 t, Any.str s], none) →
      c.Get key = .ok ({ Timestamp := Time.ofUnixMilli t,
                         Value := (c.helpers.ParseFloat s).1 }, none)) := by
  constructor
  · intro hdo
    simp only [Client.Get, newCmdGet, CmdGet.Name, CmdGet.Args, hdo]
    rfl
  · intro hdo
    simp only [Client.Get, newCmdGet, CmdGet.Name, CmdGet.Args, hdo, assertSlice, bind,
      Except.bind, parseDataPoint_pair c.helpers hps t s]
    rfl

/-- C14, at a transport error `timeout` with a malformed reply, and at the reply
`[1000, "3.5"]` without error. -/
theorem Get_error_or_data_point_witness :
    (∀ s, specHelpers.parseString (Any.str s) = .ok s) ∧
    (constClient (Any.arr [Any.int64 7]) (some "timeout")).Get "k"
      = .ok (DataPoint.zero, some "timeout") ∧
    (constClient (Any.arr [Any.int64 1000, Any.str "3.5"]) none).Get "k"
      = .ok ({ Timestamp := { sec := 1, nsec := 0 }, Value := { bits := 0x400C000000000000 } },
          none) :=
  ⟨fun _ => rfl,
    (Get_error_or_data_point (constClient (Any.arr [Any.int64 7]) (some "timeout")) "k"
      (Any.arr [Any.int64 7]) "timeout" 0 "" (fun _ => rfl)).1 rfl,
    ((Get_error_or_data_point (constClient (Any.arr [Any.int64 1000, Any.str "3.5"]) none) "k"
      Any.nil "" 1000 "3.5" (fun _ => rfl)).2 rfl).trans rfl⟩

/-- C15 fails as stated: when the transport returns the reply `[[1000, "3.5"]]` together with
the error `timeout`, `Range` decodes the reply and returns its one data point with the error,
not an empty result. -/
theorem transport_error_does_not_halt_Range :
    (constClient (Any.arr [Any.arr [Any.int64 1000, Any.str "3.5"]]) (some "timeout")).Range "k"
        SpecTimestamp.min SpecTimestamp.max []
      = .ok ([{ Timestamp := { sec := 1, nsec := 0 }, Value := { bits := 0x400C000000000000 } }],
          some "timeout") ∧
    (constClient (Any.arr [Any.arr [Any.int64 1000, Any.str "3.5"]]) (some "timeout")).Range "k"
        SpecTimestamp.min SpecTimestamp.max []
      ≠ .ok ([], some "timeout") := by
  refine ⟨rfl, fun h => ?_⟩
  have h' : (constClient (Any.arr [Any.arr [Any.int64 1000, Any.str "3.5"]])
      (some "timeout")).Range "k" SpecTimestamp.min SpecTimestamp.max []
    = .ok ([{ Timestamp := { sec := 1, nsec := 0 }, Value := { bits := 0x400C000000000000 } }],
        some "timeout") := rfl
  rw [h'] at h
  have h2 := congrArg (fun r : List DataPoint × Option String => r.1.length) (Except.ok.inj h)
  simp at h2

/-- C15, amended: a non-nil transport error does not stop `Range`, `RevRange`, `MRange`,
`MRevRange` and `MGet` from decoding. Whenever the reply decodes with a nil error, the call
with the error `e` returns the same decoded result together with `e`; and whenever the reply is
not a sequence (nil, an integer, a string, a float) the call returns the empty result together
with `e`. -/
theorem transport_error_keeps_decoding (h : Helpers Label) (key : String)
    (from_ to_ : Timestamp) (filters : List Filter)
    (ro : List (OptionRanger Timestamp)) (mo : List (OptionMRanger Timestamp Filter))
    (go : List (OptionMGet Filter)) (reply : Any) (e : E) :
    ((∀ r, (Client.mk (fun _ _ => (reply, (none : Option E))) h).Range key from_ to_ ro = .ok r →
        (Client.mk (fun _ _ => (reply, some e)) h).Range key from_ to_ ro = .ok (r.1, some e)) ∧
      (∀ r, (Client.mk (fun _ _ => (reply, (none : Option E))) h).RevRange key from_ to_ ro
          = .ok r →
        (Client.mk (fun _ _ => (reply, some e)) h).RevRange key from_ to_ ro
          = .ok (r.1, some e)) ∧
      (∀ r, (Client.mk (fun _ _ => (reply, (none : Option E))) h).MRange from_ to_ filters mo
          = .ok r →
        (Client.mk (fun _ _ => (reply, some e)) h).MRange from_ to_ filters mo
          = .ok (r.1, some e)) ∧
      (∀ r, (Client.mk (fun _ _ => (reply, (none : Option E))) h).MRevRange from_ to_ filters mo
          = .ok r →
        (Client.mk (fun _ _ => (reply, some e)) h).MRevRange from_ to_ filters mo
          = .ok (r.1, some e)) ∧
      (∀ r, (Client.mk (fun _ _ => (reply, (none : Option E))) h).MGet filters go = .ok r →
        (Client.mk (fun _ _ => (reply, some e)) h).MGet filters go = .ok (r.1, some e))) ∧
    ((∀ l, reply ≠ Any.arr l) →
      (Client.mk (fun _ _ => (reply, some e)) h).Range key from_ to_ ro = .ok ([], some e) ∧
      (Client.mk (fun _ _ => (reply, some e)) h).RevRange key from_ to_ ro = .ok ([], some e) ∧
      (Client.mk (fun _ _ => (reply, some e)) h).MRange from_ to_ filters mo
        = .ok ([], some e) ∧
      (Client.mk (fun _ _ => (reply, some e)) h).MRevRange from_ to_ filters mo
        = .ok ([], some e) ∧
      (Client.mk (fun _ _ => (reply, some e)) h).MGet filters go = .ok ([], some e)) := by
  refine ⟨⟨fun r hr => ?_, fun r hr => ?_, fun r hr => ?_, fun r hr => ?_, fun r hr => ?_⟩,
    fun hreply => ⟨?_, ?_, ?_, ?_, ?_⟩⟩
  · rw [Client.Range, ranger_eq_decodeSeq] at hr ⊢
    exact map_pair_ok_of_map_pair_ok _ _ _ r hr
  · rw [Client.RevRange, ranger_eq_decodeSeq] at hr ⊢
    exact map_pair_ok_of_map_pair_ok _ _ _ r hr
  · rw [Client.MRange, mRanger_eq_decodeSeq] at hr ⊢
    exact map_pair_ok_of_map_pair_ok _ _ _ r hr
  · rw [Client.MRevRange, mRanger_eq_decodeSeq] at hr ⊢
    exact map_pair_ok_of_map_pair_ok _ _ _ r hr
  · rw [MGet_eq_decodeSeq] at hr ⊢
    exact map_pair_ok_of_map_pair_ok _ _ _ r hr
  · simp only [Client.Range, ranger_eq_decodeSeq, decodeSeq_of_not_arr _ _ hreply]
    rfl
  · simp only [Client.RevRange, ranger_eq_decodeSeq, decodeSeq_of_not_arr _ _ hreply]
    rfl
  · simp only [Client.MRange, mRanger_eq_decodeSeq, decodeSeq_of_not_arr _ _ hreply]
    rfl
  · simp only [Client.MRevRange, mRanger_eq_decodeSeq, decodeSeq_of_not_arr _ _ hreply]
    rfl
  · simp only [MGet_eq_decodeSeq, decodeSeq_of_not_arr _ _ hreply]
    rfl

/-- C15 amended, at the reply `[[2000, "4.25"]]` and at the nil reply, both with the error
`timeout`, for `RevRange`. -/
theorem transport_error_keeps_decoding_witness :
    (Client.mk (fun _ _ => (Any.arr [Any.arr [Any.int64 2000, Any.str "4.25"]],
          (none : Option String))) specHelpers).RevRange "k" SpecTimestamp.min
        SpecTimestamp.max []
      = .ok ([{ Timestamp := { sec := 2, nsec := 0 }, Value := { bits := 0x4011000000000000 } }],
          none) ∧
    (Client.mk (fun _ _ => (Any.arr [Any.arr [Any.int64 2000, Any.str "4.25"]],
          some "timeout")) specHelpers).RevRange "k" SpecTimestamp.min SpecTimestamp.max []
      = .ok ([{ Timestamp := { sec := 2, nsec := 0 }, Value := { bits := 0x4011000000000000 } }],
          some "timeout") ∧
    (∀ l, Any.nil ≠ Any.arr l) ∧
    (Client.mk (fun _ _ => (Any.nil, some "timeout")) specHelpers).RevRange "k"
        SpecTimestamp.min SpecTimestamp.max []
      = .ok ([], some "timeout") :=
  have hn : ∀ l, Any.nil ≠ Any.arr l := fun _ hne => Any.noConfusion hne
  ⟨rfl,
    (transport_error_keeps_decoding specHelpers "k" SpecTimestamp.min SpecTimestamp.max
      ([] : List SpecFilter) [] [] [] (Any.arr [Any.arr [Any.int64 2000, Any.str "4.25"]])
      "timeout").1.2.1 _ rfl,
    hn,
    ((transport_error_keeps_decoding specHelpers "k" SpecTimestamp.min SpecTimestamp.max
      ([] : List SpecFilter) [] [] [] Any.nil "timeout").2 hn).2.1⟩

/-- C16: options affect only request construction. For two runs of `Range`, `RevRange`,
`MRange` or `MRevRange` with any two option lists, in which the transports return the same
reply and error, the results (decoded data and error, or the panic) are equal: each is the
shared decoding of the reply paired with the error, a function of that pair alone. -/
theorem options_do_not_affect_decoding (h : Helpers Label)
    (Do₁ Do₂ : String → List Any → Any × Option E) (key : String) (from_ to_ : Timestamp)
    (filters : List Filter) (ro₁ ro₂ : List (OptionRanger Timestamp))
    (mo₁ mo₂ : List (OptionMRanger Timestamp Filter)) (reply : Any) (err : Option E)
    (hdo₁ : ∀ name args, Do₁ name args = (reply, err))
    (hdo₂ : ∀ name args, Do₂ name args = (reply, err)) :
    ((Client.mk Do₁ h).Range key from_ to_ ro₁ = (Client.mk Do₂ h).Range key from_ to_ ro₂ ∧
      (Client.mk Do₁ h).RevRange key from_ to_ ro₁
        = (Client.mk Do₂ h).RevRange key from_ to_ ro₂ ∧
      (Client.mk Do₁ h).MRange from_ to_ filters mo₁
        = (Client.mk Do₂ h).MRange from_ to_ filters mo₂ ∧
      (Client.mk Do₁ h).MRevRange from_ to_ filters mo₁
        = (Client.mk Do₂ h).MRevRange from_ to_ filters mo₂) ∧
    ((Client.mk Do₁ h).Range key from_ to_ ro₁
        = (decodeSeq (parseDataPoint h) reply).map (fun ds => (ds, err)) ∧
      (Client.mk Do₁ h).RevRange key from_ to_ ro₁
        = (decodeSeq (parseDataPoint h) reply).map (fun ds => (ds, err)) ∧
      (Client.mk Do₁ h).MRange from_ to_ filters mo₁
        = (decodeSeq (parseTimeSeries h) reply).map (fun ds => (ds, err)) ∧
      (Client.mk Do₁ h).MRevRange from_ to_ filters mo₁
        = (decodeSeq (parseTimeSeries h) reply).map (fun ds => (ds, err))) := by
  have r1 : ∀ (Do : String → List Any → Any × Option E), (∀ name args, Do name args = (reply, err)) →
      ∀ (name : nameRanger) (ro : List (OptionRanger Timestamp)),
      (Client.mk Do h).ranger name key from_ to_ ro
        = (decodeSeq (parseDataPoint h) reply).map (fun ds => (ds, err)) := by
    intro Do hdo name ro
    rw [ranger_eq_decodeSeq]
    simp only [hdo]
  have r2 : ∀ (Do : String → List Any → Any × Option E), (∀ name args, Do name args = (reply, err)) →
      ∀ (name : nameMRanger) (mo : List (OptionMRanger Timestamp Filter)),
      (Client.mk Do h).mRanger name from_ to_ filters mo
        = (decodeSeq (parseTimeSeries h) reply).map (fun ds => (ds, err)) := by
    intro Do hdo name mo
    rw [mRanger_eq_decodeSeq]
    simp only [hdo]
  refine ⟨⟨?_, ?_, ?_, ?_⟩, r1 Do₁ hdo₁ _ _, r1 Do₁ hdo₁ _ _, r2 Do₁ hdo₁ _ _, r2 Do₁ hdo₁ _ _⟩
  · exact (r1 Do₁ hdo₁ _ _).trans (r1 Do₂ hdo₂ _ _).symm
  · exact (r1 Do₁ hdo₁ _ _).trans (r1 Do₂ hdo₂ _ _).symm
  · exact (r2 Do₁ hdo₁ _ _).trans (r2 Do₂ hdo₂ _ _).symm
  · exact (r2 Do₁ hdo₁ _ _).trans (r2 Do₂ hdo₂ _ _).symm

/-- C16, at two value filters with different bounds (bit patterns of 1.0, 3.5 and 4.25) and
the reply `[[1000, "3.5"]]`: both runs of `Range` return the same. -/
theorem options_do_not_affect_decoding_witness :
    (∀ name args, (fun (_ : String) (_ : List Any) =>
        (Any.arr [Any.arr [Any.int64 1000, Any.str "3.5"]], (none : Option String))) name args
      = (Any.arr [Any.arr [Any.int64 1000, Any.str "3.5"]], none)) ∧
    (Client.mk (fun _ _ => (Any.arr [Any.arr [Any.int64 1000, Any.str "3.5"]],
          (none : Option String))) specHelpers).Range "k" SpecTimestamp.min SpecTimestamp.max
        [RangerWithValueFilter { bits := 0x3FF0000000000000 } { bits := 0x400C000000000000 }]
      = (Client.mk (fun _ _ => (Any.arr [Any.arr [Any.int64 1000, Any.str "3.5"]],
          (none : Option String))) specHelpers).Range "k" SpecTimestamp.min SpecTimestamp.max
        [RangerWithValueFilter { bits := 0x3FF0000000000000 } { bits := 0x4011000000000000 }] :=
  ⟨fun _ _ => rfl,
    (options_do_not_affect_decoding specHelpers
      (fun _ _ => (Any.arr [Any.arr [Any.int64 1000, Any.str "3.5"]], (none : Option String)))
      (fun _ _ => (Any.arr [Any.arr [Any.int64 1000, Any.str "3.5"]], (none : Option String)))
      "k" SpecTimestamp.min SpecTimestamp.max ([] : List SpecFilter)
      [RangerWithValueFilter { bits := 0x3FF0000000000000 } { bits := 0x400C000000000000 }]
      [RangerWithValueFilter { bits := 0x3FF0000000000000 } { bits := 0x4011000000000000 }]
      [] [] (Any.arr [Any.arr [Any.int64 1000, Any.str "3.5"]]) none
      (fun _ _ => rfl) (fun _ _ => rfl)).1.1⟩

/-- C17 fails as stated: for the pair `[1000, "1e999"]`, whose value string is syntactically a
number beyond the range of `float64`, `strconv.ParseFloat` fails with a range error and the
value `+Inf`, and `parseDataPoint` keeps that value: the data point's `Value` is `+Inf`, not
zero. -/
theorem parseDataPoint_range_error_not_zero :
    (specHelpers.ParseFloat "1e999").2 = true ∧
    parseDataPoint specHelpers [Any.int64 1000, Any.str "1e999"]
      = .ok { Timestamp := { sec := 1, nsec := 0 }, Value := { bits := 0x7FF0000000000000 } } ∧
    parseDataPoint specHelpers [Any.int64 1000, Any.str "1e999"]
      ≠ .ok { Timestamp := Time.ofUnixMilli 1000, Value := { bits := 0 } } := by
  refine ⟨rfl, rfl, fun h => ?_⟩
  have h' : parseDataPoint specHelpers [Any.int64 1000, Any.str "1e999"]
      = .ok { Timestamp := { sec := 1, nsec := 0 }, Value := { bits := 0x7FF0000000000000 } } :=
    rfl
  rw [h'] at h
  have h2 := congrArg (fun d : DataPoint => d.Value.bits) (Except.ok.inj h)
  simp at h2

/-- C17, amended: for every pair `[t, s]` of a 64-bit integer and a string, whether or not `s`
parses, `parseDataPoint` returns without error the data point with timestamp `t` ms and with
the value that `strconv.ParseFloat` returns, its error being dropped; so when `ParseFloat`
fails with the value `v` (zero for a string that is not a number) the `Value` is `v`. -/
theorem parseDataPoint_keeps_ParseFloat_value (h : Helpers Label) (t : Int) (s : String)
    (hps : ∀ s, h.parseString (Any.str s) = .ok s) :
    parseDataPoint h [Any.int64 t, Any.str s]
      = .ok { Timestamp := Time.ofUnixMilli t, Value := (h.ParseFloat s).1 } ∧
    (∀ v, h.ParseFloat s = (v, true) →
      parseDataPoint h [Any.int64 t, Any.str s]
        = .ok { Timestamp := Time.ofUnixMilli t, Value := v }) := by
  have hp := parseDataPoint_pair h hps t s
  refine ⟨hp, fun v hv => ?_⟩
  rw [hp, hv]

/-- C17 amended, at the pair `[1000, "abc"]`: the value string is not a number, `ParseFloat`
fails with the value zero, and the `Value` is zero. -/
theorem parseDataPoint_keeps_ParseFloat_value_witness :
    (∀ s, specHelpers.parseString (Any.str s) = .ok s) ∧
    specHelpers.ParseFloat "abc" = ({ bits := 0 }, true) ∧
    parseDataPoint specHelpers [Any.int64 1000, Any.str "abc"]
      = .ok { Timestamp := Time.ofUnixMilli 1000, Value := { bits := 0 } } :=
  ⟨fun _ => rfl, rfl,
    (parseDataPoint_keeps_ParseFloat_value specHelpers 1000 "abc" (fun _ => rfl)).2 _ rfl⟩

/-- C18: a multi-get reply element `[key, labelArray, [t, s]]` decodes to the record with the
decoded key, one label per element of `labelArray` in order (none, without a panic, when the
second item is not an array) and the data point that `parseDataPoint` decodes from the pair
`[t, s]`; and `MGet` returns, with the transport's error, one record per reply element in the
order of the reply, each the one `parseLastDatapoint` decodes. -/
theorem parseLastDatapoint_decodes (h : Helpers Label) (key : Any) (k : String)
    (lps : List (List Any × Label)) (t : Int) (s : String) (x : Any)
    (Do : String → List Any → Any × Option E) (filters : List Filter)
    (go : List (OptionMGet Filter)) (els : List (List Any × LastDatapoint Label))
    (err : Option E)
    (hkey : h.parseString key = .ok k)
    (hps : ∀ s, h.parseString (Any.str s) = .ok s)
    (hl : ∀ p ∈ lps, h.parseLabel p.1 = .ok p.2)
    (hx : ∀ l, x ≠ Any.arr l)
    (hels : ∀ p ∈ els, parseLastDatapoint h p.1 = .ok p.2)
    (hdo : ∀ name args, Do name args = (Any.arr (els.map (fun p => Any.arr p.1)), err)) :
    parseLastDatapoint h [key, Any.arr (lps.map (fun p => Any.arr p.1)),
        Any.arr [Any.int64 t, Any.str s]]
      = .ok { Key := k, Labels := lps.map (fun p => p.2),
              DataPoint := { Timestamp := Time.ofUnixMilli t, Value := (h.ParseFloat s).1 } } ∧
    parseLastDatapoint h [key, x, Any.arr [Any.int64 t, Any.str s]]
      = .ok { Key := k, Labels := [],
              DataPoint := { Timestamp := Time.ofUnixMilli t, Value := (h.ParseFloat s).1 } } ∧
    parseDataPoint h [Any.int64 t, Any.str s]
      = .ok { Timestamp := Time.ofUnixMilli t, Value := (h.ParseFloat s).1 } ∧
    (Client.mk Do h).MGet filters go = .ok (els.map (fun p => p.2), err) := by
  have hls : (lps.map (fun p => Any.arr p.1)).mapM
      (fun il => do h.parseLabel (← assertSlice il)) = .ok (lps.map (fun p => p.2)) := by
    apply mapM_ok_of_forall
    intro p hp
    simp only [assertSlice, bind, Except.bind]
    exact hl p hp
  have hdp := parseDataPoint_pair h hps t s
  simp only [bind, Except.bind, assertSlice] at hls
  refine ⟨?_, ?_, hdp, ?_⟩
  · simp only [parseLastDatapoint, index, List.getElem?_cons_succ, List.getElem?_cons_zero,
      bind, Except.bind, hls, hkey, assertSlice, hdp]
    rfl
  · cases x with
    | arr l => exact absurd rfl (hx l)
    | _ =>
      simp only [parseLastDatapoint, index, List.getElem?_cons_succ, List.getElem?_cons_zero,
        bind, Except.bind, hkey, assertSlice, hdp, pure, Except.pure]
  · have hm : (els.map (fun p => Any.arr p.1)).mapM
        (fun i => do parseLastDatapoint h (← assertSlice i)) = .ok (els.map (fun p => p.2)) := by
      apply mapM_ok_of_forall
      intro p hp
      simp only [assertSlice, bind, Except.bind]
      exact hels p hp
    rw [MGet_eq_decodeSeq]
    simp only [hdo, decodeSeq, hm]
    rfl

/-- C18, at the element `["series-a", [["region","us"]], [1000,"1.0"]]`, at the same element
with a nil second item, and at the multi-get reply made of the two. -/
theorem parseLastDatapoint_decodes_witness :
    parseLastDatapoint specHelpers [Any.str "series-a",
        Any.arr [Any.arr [Any.str "region", Any.str "us"]],
        Any.arr [Any.int64 1000, Any.str "1.0"]]
      = .ok { Key := "series-a", Labels := [SpecLabel.mk "region" "us"],
              DataPoint := { Timestamp := { sec := 1, nsec := 0 },
                             Value := { bits := 0x3FF0000000000000 } } } ∧
    parseLastDatapoint specHelpers [Any.str "series-a", Any.nil,
        Any.arr [Any.int64 1000, Any.str "1.0"]]
      = .ok { Key := "series-a", Labels := [],
              DataPoint := { Timestamp := { sec := 1, nsec := 0 },
                             Value := { bits := 0x3FF0000000000000 } } } ∧
    (constClient (Any.arr [
        Any.arr [Any.str "series-a", Any.arr [Any.arr [Any.str "region", Any.str "us"]],
          Any.arr [Any.int64 1000, Any.str "1.0"]],
        Any.arr [Any.str "series-a", Any.nil, Any.arr [Any.int64 1000, Any.str "1.0"]]])
        none).MGet [SpecFilter.mk "region=us"] []
      = .ok ([{ Key := "series-a", Labels := [SpecLabel.mk "region" "us"],
                DataPoint := { Timestamp := { sec := 1, nsec := 0 },
                               Value := { bits := 0x3FF0000000000000 } } },
              { Key := "series-a", Labels := [],
                DataPoint := { Timestamp := { sec := 1, nsec := 0 },
                               Value := { bits := 0x3FF0000000000000 } } }], none) :=
  have hl : ∀ p ∈ [([Any.str "region", Any.str "us"], SpecLabel.mk "region" "us")],
      specHelpers.parseLabel p.1 = .ok p.2 := by
    intro p hp
    simp only [List.mem_singleton] at hp
    subst hp
    rfl
  have hx : ∀ l, Any.nil ≠ Any.arr l := fun _ hne => Any.noConfusion hne
  have hels : ∀ p ∈ [
      ([Any.str "series-a", Any.arr [Any.arr [Any.str "region", Any.str "us"]],
          Any.arr [Any.int64 1000, Any.str "1.0"]],
        ({ Key := "series-a", Labels := [SpecLabel.mk "region" "us"],
           DataPoint := { Timestamp := { sec := 1, nsec := 0 },
                          Value := { bits := 0x3FF0000000000000 } } } : LastDatapoint SpecLabel)),
      ([Any.str "series-a", Any.nil, Any.arr [Any.int64 1000, Any.str "1.0"]],
        { Key := "series-a", Labels := [],
          DataPoint := { Timestamp := { sec := 1, nsec := 0 },
                         Value := { bits := 0x3FF0000000000000 } } })],
      parseLastDatapoint specHelpers p.1 = .ok p.2 := by
    intro p hp
    simp only [List.mem_cons, List.mem_singleton, List.not_mem_nil, or_false] at hp
    rcases hp with rfl | rfl <;> rfl
  have h := parseLastDatapoint_decodes specHelpers (Any.str "series-a") "series-a"
    [([Any.str "region", Any.str "us"], SpecLabel.mk "region" "us")] 1000 "1.0" Any.nil
    (fun (_ : String) (_ : List Any) => (Any.arr [
        Any.arr [Any.str "series-a", Any.arr [Any.arr [Any.str "region", Any.str "us"]],
          Any.arr [Any.int64 1000, Any.str "1.0"]],
        Any.arr [Any.str "series-a", Any.nil, Any.arr [Any.int64 1000, Any.str "1.0"]]],
      (none : Option String)))
    [SpecFilter.mk "region=us"] [] _ none rfl (fun _ => rfl) hl hx hels (fun _ _ => rfl)
  ⟨h.1.trans rfl, h.2.1.trans rfl, h.2.2.2⟩

end DecoderTheorems

section ClauseTheorems

variable {Timestamp Filter : Type} [Argument Timestamp] [Argument Filter]

/-- C19: the timestamp-list filter is two-state. On a builder whose timestamp filter was never
applied the rendering has no `FILTER_BY_TS` clause; applying `RangerWithTSFilter` /
`MRangerWithTSFilter` with zero timestamps renders the same arguments, and applying it with
zero timestamps after a non-empty application removes the clause again; applying it with the
timestamps `t, ts...` puts `FILTER_BY_TS` and one millisecond integer per timestamp, in order,
right after the required arguments. -/
theorem tsFilter_two_state (c : CmdRanger Timestamp) (cm : CmdMRanger Timestamp Filter)
    (t : Time) (ts : List Time) (hc : c.tsFilter = []) (hcm : cm.tsFilter = []) :
    (c.Args = [Any.str c.key, Argument.Arg c.from_, Argument.Arg c.to_]
        ++ (clauseFilterByValue c.valueFilter ++ clauseCount c.count ++ clauseAlign c.align
          ++ clauseAggregation c.aggregation) ∧
      (RangerWithTSFilter [] c).Args = c.Args ∧
      (RangerWithTSFilter [] (RangerWithTSFilter (t :: ts) c)).Args = c.Args ∧
      (RangerWithTSFilter (t :: ts) c).Args
        = [Any.str c.key, Argument.Arg c.from_, Argument.Arg c.to_]
          ++ Any.str "FILTER_BY_TS" :: Any.int64 t.UnixMilli
            :: ts.map (fun t => Any.int64 t.UnixMilli)
          ++ (clauseFilterByValue c.valueFilter ++ clauseCount c.count ++ clauseAlign c.align
            ++ clauseAggregation c.aggregation)) ∧
    (cm.Args = [Argument.Arg cm.from_, Argument.Arg cm.to_]
        ++ (clauseFilterByValue cm.valueFilter ++ clauseLabels cm.withLabels
          ++ clauseCount cm.count ++ clauseAlign cm.align ++ clauseAggregation cm.aggregation
          ++ Any.str "FILTER" :: cm.filters.map Argument.Arg ++ clauseGroupBy cm.groupBy) ∧
      (MRangerWithTSFilter [] cm).Args = cm.Args ∧
      (MRangerWithTSFilter [] (MRangerWithTSFilter (t :: ts) cm)).Args = cm.Args ∧
      (MRangerWithTSFilter (t :: ts) cm).Args
        = [Argument.Arg cm.from_, Argument.Arg cm.to_]
          ++ Any.str "FILTER_BY_TS" :: Any.int64 t.UnixMilli
            :: ts.map (fun t => Any.int64 t.UnixMilli)
          ++ (clauseFilterByValue cm.valueFilter ++ clauseLabels cm.withLabels
            ++ clauseCount cm.count ++ clauseAlign cm.align ++ clauseAggregation cm.aggregation
            ++ Any.str "FILTER" :: cm.filters.map Argument.Arg ++ clauseGroupBy cm.groupBy)) := by
  have e1 : RangerWithTSFilter [] c = c := by
    obtain ⟨_, _, _, _, tsf, _, _, _, _⟩ := c
    cases hc
    rfl
  have e2 : RangerWithTSFilter [] (RangerWithTSFilter (t :: ts) c) = c := by
    obtain ⟨_, _, _, _, tsf, _, _, _, _⟩ := c
    cases hc
    rfl
  have e3 : MRangerWithTSFilter [] cm = cm := by
    obtain ⟨_, _, _, _, tsf, _, _, _, _, _, _⟩ := cm
    cases hcm
    rfl
  have e4 : MRangerWithTSFilter [] (MRangerWithTSFilter (t :: ts) cm) = cm := by
    obtain ⟨_, _, _, _, tsf, _, _, _, _, _, _⟩ := cm
    cases hcm
    rfl
  refine ⟨⟨?_, by rw [e1], by rw [e2], ?_⟩, ⟨?_, by rw [e3], by rw [e4], ?_⟩⟩
  · rw [CmdRanger_Args_eq_clauses, hc]
    simp [clauseFilterByTS]
  · rw [CmdRanger_Args_eq_clauses]
    simp [RangerWithTSFilter, clauseFilterByTS]
  · rw [CmdMRanger_Args_eq_clauses, hcm]
    simp [clauseFilterByTS, clauseFilter]
  · rw [CmdMRanger_Args_eq_clauses]
    simp [MRangerWithTSFilter, clauseFilterByTS, clauseFilter]

/-- C19, on fresh `TS.RANGE k - +` and `TS.MRANGE - + FILTER l=v` builders, with the
timestamps 1.5 s and 2 s after the epoch. -/
theorem tsFilter_two_state_witness :
    (newCmdRanger nameRange "k" SpecTimestamp.min SpecTimestamp.max).tsFilter = [] ∧
    (newCmdMRanger nameMRange SpecTimestamp.min SpecTimestamp.max
      [SpecFilter.mk "l=v"]).tsFilter = [] ∧
    (RangerWithTSFilter [] (newCmdRanger nameRange "k" SpecTimestamp.min
        SpecTimestamp.max)).Args
      = [Any.str "k", Any.str "-", Any.str "+"] ∧
    (RangerWithTSFilter [Time.mk 1 500000000, Time.mk 2 0]
        (newCmdRanger nameRange "k" SpecTimestamp.min SpecTimestamp.max)).Args
      = [Any.str "k", Any.str "-", Any.str "+", Any.str "FILTER_BY_TS", Any.int64 1500,
          Any.int64 2000] ∧
    (MRangerWithTSFilter [] (MRangerWithTSFilter [Time.mk 1 500000000, Time.mk 2 0]
        (newCmdMRanger nameMRange SpecTimestamp.min SpecTimestamp.max
          [SpecFilter.mk "l=v"]))).Args
      = [Any.str "-", Any.str "+", Any.str "FILTER", Any.str "l=v"] :=
  have h := tsFilter_two_state
    (newCmdRanger nameRange "k" SpecTimestamp.min SpecTimestamp.max)
    (newCmdMRanger nameMRange SpecTimestamp.min SpecTimestamp.max [SpecFilter.mk "l=v"])
    (Time.mk 1 500000000) [Time.mk 2 0] rfl rfl
  ⟨rfl, rfl, h.1.2.1.trans rfl, h.1.2.2.2.trans rfl, h.2.2.2.1.trans rfl⟩

/-- C20: the bucket argument rendered after `AGGREGATION` and the type token is the duration's
nanosecond count divided by 1,000,000 and truncated toward zero, on both range builders; a
duration of less than one millisecond in absolute value renders the bucket 0, and two durations
with the same truncated millisecond count (for non-negative durations: in the same whole
millisecond) render identical argument lists. -/
theorem aggregation_bucket_truncates (t : AggregationType) (d d' : Duration)
    (c : CmdRanger Timestamp) (cm : CmdMRanger Timestamp Filter) :
    ((RangerWithAggregation t d c).Args
        = [Any.str c.key, Argument.Arg c.from_, Argument.Arg c.to_]
          ++ clauseFilterByTS c.tsFilter ++ clauseFilterByValue c.valueFilter
          ++ clauseCount c.count ++ clauseAlign c.align
          ++ [Any.str "AGGREGATION", Any.str t, Any.int64 (Int.tdiv d.ns 1000000)] ∧
      (MRangerWithAggregation t d cm).Args
        = [Argument.Arg cm.from_, Argument.Arg cm.to_]
          ++ clauseFilterByTS cm.tsFilter ++ clauseFilterByValue cm.valueFilter
          ++ clauseLabels cm.withLabels ++ clauseCount cm.count ++ clauseAlign cm.align
          ++ [Any.str "AGGREGATION", Any.str t, Any.int64 (Int.tdiv d.ns 1000000)]
          ++ Any.str "FILTER" :: cm.filters.map Argument.Arg ++ clauseGroupBy cm.groupBy) ∧
    (∃ r, d.ns = 1000000 * Int.tdiv d.ns 1000000 + r ∧
      (0 ≤ d.ns → 0 ≤ r ∧ r < 1000000) ∧ (d.ns < 0 → -1000000 < r ∧ r ≤ 0)) ∧
    (-1000000 < d.ns → d.ns < 1000000 → Int.tdiv d.ns 1000000 = 0) ∧
    (Int.tdiv d.ns 1000000 = Int.tdiv d'.ns 1000000 →
      (RangerWithAggregation t d c).Args = (RangerWithAggregation t d' c).Args ∧
      (MRangerWithAggregation t d cm).Args = (MRangerWithAggregation t d' cm).Args) ∧
    (0 ≤ d.ns → 0 ≤ d'.ns → d.ns / 1000000 = d'.ns / 1000000 →
      (RangerWithAggregation t d c).Args = (RangerWithAggregation t d' c).Args ∧
      (MRangerWithAggregation t d cm).Args = (MRangerWithAggregation t d' cm).Args) := by
  have hR : ∀ x : Duration, (RangerWithAggregation t x c).Args
      = [Any.str c.key, Argument.Arg c.from_, Argument.Arg c.to_]
        ++ clauseFilterByTS c.tsFilter ++ clauseFilterByValue c.valueFilter
        ++ clauseCount c.count ++ clauseAlign c.align
        ++ [Any.str "AGGREGATION", Any.str t, Any.int64 (Int.tdiv x.ns 1000000)] := by
    intro x
    rw [CmdRanger_Args_eq_clauses]
    rfl
  have hM : ∀ x : Duration, (MRangerWithAggregation t x cm).Args
      = [Argument.Arg cm.from_, Argument.Arg cm.to_]
        ++ clauseFilterByTS cm.tsFilter ++ clauseFilterByValue cm.valueFilter
        ++ clauseLabels cm.withLabels ++ clauseCount cm.count ++ clauseAlign cm.align
        ++ [Any.str "AGGREGATION", Any.str t, Any.int64 (Int.tdiv x.ns 1000000)]
        ++ Any.str "FILTER" :: cm.filters.map Argument.Arg ++ clauseGroupBy cm.groupBy := by
    intro x
    rw [CmdMRanger_Args_eq_clauses]
    rfl
  obtain ⟨hqr, hpos, hneg⟩ := tdiv_tmod_spec d.ns 1000000 (by norm_num)
  have hsame : Int.tdiv d.ns 1000000 = Int.tdiv d'.ns 1000000 →
      (RangerWithAggregation t d c).Args = (RangerWithAggregation t d' c).Args ∧
      (MRangerWithAggregation t d cm).Args = (MRangerWithAggregation t d' cm).Args := by
    intro h
    rw [hR d, hR d', hM d, hM d', h]
    exact ⟨rfl, rfl⟩
  refine ⟨⟨hR d, hM d⟩, ⟨Int.tmod d.ns 1000000, hqr.symm, hpos, hneg⟩, ?_, hsame, ?_⟩
  · intro h1 h2
    by_cases h0 : 0 ≤ d.ns
    · have := hpos h0
      omega
    · have := hneg (by omega)
      omega
  · intro h0 h0' h
    apply hsame
    rw [Int.tdiv_eq_ediv h0 (by norm_num), Int.tdiv_eq_ediv h0' (by norm_num)]
    exact h

/-- C20, at an average over 1.5 ms and over 1.999999 ms (both render the bucket 1) and at a
bucket of minus half a millisecond (renders 0), on a fresh `TS.RANGE k - +` builder. -/
theorem aggregation_bucket_truncates_witness :
    Int.tdiv (Duration.mk 1500000).ns 1000000 = Int.tdiv (Duration.mk 1999999).ns 1000000 ∧
    (RangerWithAggregation "avg" (Duration.mk 1500000)
        (newCmdRanger nameRange "k" SpecTimestamp.min SpecTimestamp.max)).Args
      = (RangerWithAggregation "avg" (Duration.mk 1999999)
        (newCmdRanger nameRange "k" SpecTimestamp.min SpecTimestamp.max)).Args ∧
    (RangerWithAggregation "avg" (Duration.mk 1500000)
        (newCmdRanger nameRange "k" SpecTimestamp.min SpecTimestamp.max)).Args
      = [Any.str "k", Any.str "-", Any.str "+", Any.str "AGGREGATION", Any.str "avg",
          Any.int64 1] ∧
    -1000000 < (Duration.mk (-500000)).ns ∧ (Duration.mk (-500000)).ns < 1000000 ∧
    Int.tdiv (Duration.mk (-500000)).ns 1000000 = 0 :=
  have h := aggregation_bucket_truncates "avg" (Duration.mk 1500000) (Duration.mk 1999999)
    (newCmdRanger nameRange "k" SpecTimestamp.min SpecTimestamp.max)
    (newCmdMRanger nameMRange SpecTimestamp.min SpecTimestamp.max [SpecFilter.mk "l=v"])
  have h' := aggregation_bucket_truncates "avg" (Duration.mk (-500000)) (Duration.mk 0)
    (newCmdRanger nameRange "k" SpecTimestamp.min SpecTimestamp.max)
    (newCmdMRanger nameMRange SpecTimestamp.min SpecTimestamp.max [SpecFilter.mk "l=v"])
  ⟨by decide, (h.2.2.2.1 (by decide)).1, h.1.1.trans rfl, by decide, by decide,
    h'.2.2.1 (by decide) (by decide)⟩

end ClauseTheorems

end Redists
